import Mathlib

/-!
Verification of the m3 dbnode core components against their natural-language
specification:

* the per-series write buffer (`src/dbnode/storage/series/buffer.go`),
* the fileset seeker manager (`src/dbnode/persist/fs/seek_manager.go`),
* the namespace index query traversal (modelled from the spec, its source
  is only witnessed here through its tests).

Times are modelled as `Int` values counting nanoseconds since the epoch
(Go `time.Time` / `xtime.UnixNano`); durations are `Int` nanosecond counts.
Datapoint values are modelled as `Int`: the claims under study only ever
compare values for equality, never compute with them, so the opaque float64
payload is represented by an integer stand-in.  The encoder / stream /
segment subsystem is explicitly out of scope of the specification ("treated
as an abstract encoder producing opaque segments"), so an encoder is
modelled by the list of datapoints it holds, and the fallible external
operations (the multi-reader merge iterator + re-encode, and the
caller-supplied persist function) are passed in as parameters so that both
their success and failure behaviours can be examined.
-/

/-- Go `time.Time.Truncate(d)`: round `t` down to a multiple of `d`. -/
def truncateTime (t d : Int) : Int := t - t.emod d

/-- A single datapoint (`ts.Datapoint`): timestamp plus value. -/
structure Datapoint where
  ts : Int
  value : Int
  deriving DecidableEq, Repr

/-- `series.WriteType`: warm, cold, or bootstrap. -/
inductive WriteType where
  | warm
  | cold
  | bootstrapWrite
  deriving DecidableEq, Repr

/-- The errors the series buffer write path can surface
(`xerrors.NewInvalidParamsError`, `m3dberrors.ErrTooPast`,
`m3dberrors.ErrTooFuture`). -/
inductive WriteError where
  | invalidParams
  | tooPast
  | tooFuture
  deriving DecidableEq, Repr

/-- `inOrderEncoder`: an encoder (modelled by its encoded datapoints, in
encode order) together with the timestamp of the last write into it. -/
structure InOrderEncoder where
  data : List Datapoint
  lastWriteAt : Int
  deriving DecidableEq, Repr

/-- `BufferBucket`: a container of encoders and bootstrapped blocks for one
(series, blockStart, writeType, version).  A bootstrapped block
(`block.DatabaseBlock`) is modelled by the list of datapoints it holds. -/
structure BufferBucket where
  start : Int
  encoders : List InOrderEncoder
  bootstrapped : List (List Datapoint)
  version : Nat
  writeType : WriteType
  deriving DecidableEq, Repr

/-- `writableBucketVersion = 0`. -/
def writableBucketVersion : Nat := 0

/-- `BufferBucketVersions`: all buckets of one blockStart. -/
structure BufferBucketVersions where
  buckets : List BufferBucket
  start : Int
  lastReadUnixNanos : Int
  deriving DecidableEq, Repr

/-- `bucketsCacheSize = 2`. -/
def bucketsCacheSize : Nat := 2

/-- `dbBuffer`: the per-series buffer.  `bucketsMap` is the
`map[xtime.UnixNano]*BufferBucketVersions` as an association list;
`bucketVersionsCache` is the two-slot LRU array.  Each cache slot records
the blockStart of the `BufferBucketVersions` object the Go slot points at:
the buffer allocates exactly one such object per live blockStart and drops
the cache slot whenever the object is removed, so Go pointer identity
between live cache entries coincides with blockStart equality. -/
structure DBuffer where
  bucketsMap : List (Int × BufferBucketVersions)
  cache0 : Option Int
  cache1 : Option Int
  inOrderBlockStarts : List Int
  blockSize : Int
  bufferPast : Int
  bufferFuture : Int
  coldWritesEnabled : Bool
  retentionPeriod : Int
  futureRetentionPeriod : Int
  deriving DecidableEq, Repr

/-- The classification switch at the head of `dbBuffer.Write`
(buffer.go:268-311): decide the write type from `now`, `bufferPast` and
`bufferFuture`, reject cold writes when disabled, and apply the retention
checks to cold writes.  `!pastLimit.Before(timestamp)` is
`pastLimit ≥ timestamp`; `!futureLimit.After(timestamp)` is
`futureLimit ≤ timestamp`; `now.Add(-retentionPeriod).After(timestamp)` is
`now - retentionPeriod > timestamp`;
`!now.Add(futureRetentionPeriod).Add(blockSize).After(timestamp)` is
`now + futureRetentionPeriod + blockSize ≤ timestamp`. -/
def DBuffer.coldRetentionCheck (b : DBuffer) (now timestamp : Int) :
    Except WriteError WriteType :=
  if now - b.retentionPeriod > timestamp then .error .tooPast
  else if now + b.futureRetentionPeriod + b.blockSize ≤ timestamp then
    .error .tooFuture
  else .ok .cold

def DBuffer.classifyWrite (b : DBuffer) (now timestamp : Int) :
    Except WriteError WriteType :=
  let pastLimit := now - b.bufferPast
  let futureLimit := now + b.bufferFuture
  if timestamp ≤ pastLimit then
    if ¬ b.coldWritesEnabled then .error .invalidParams
    else b.coldRetentionCheck now timestamp
  else if futureLimit ≤ timestamp then
    if ¬ b.coldWritesEnabled then .error .invalidParams
    else b.coldRetentionCheck now timestamp
  else .ok .warm

/-! ### Bucket write path (buffer.go:1031-1141, 898-984, 756-845) -/

/-- `BufferBucket.resetTo`: a freshly created bucket holds one empty encoder
(whose `lastWriteAt` is the zero time, modelled as `0`), no bootstrapped
blocks, the writable version and the requested write type. -/
def BufferBucket.resetTo (start : Int) (writeType : WriteType) : BufferBucket :=
  { start := start
    encoders := [{ data := [], lastWriteAt := 0 }]
    bootstrapped := []
    version := writableBucketVersion
    writeType := writeType }

/-- The encoder-selection loop of `BufferBucket.write` (buffer.go:1069-1090):
walk the encoders in order; on an encoder whose `lastWriteAt` equals the
timestamp, a matching last value is a no-op (Go also returns `written =
false` when `LastEncoded` fails on an empty encoder), a differing value
moves on to the next encoder; the first encoder with `lastWriteAt` before
the timestamp is extended; otherwise a new encoder is allocated. -/
inductive WriteDecision where
  | noop
  | extend (i : Nat)
  | newEncoder
  deriving DecidableEq, Repr

def writeDecision (timestamp value : Int) :
    List InOrderEncoder → Nat → WriteDecision
  | [], _ => .newEncoder
  | e :: rest, i =>
    if timestamp = e.lastWriteAt then
      match e.data.getLast? with
      | none => .noop
      | some last =>
        if last.value = value then .noop
        else writeDecision timestamp value rest (i + 1)
    else if e.lastWriteAt < timestamp then .extend i
    else writeDecision timestamp value rest (i + 1)

/-- `BufferBucket.writeToEncoderIndex`: append the datapoint to encoder `i`
and update its `lastWriteAt`. -/
def writeToEncoderIndex (dp : Datapoint) :
    List InOrderEncoder → Nat → List InOrderEncoder
  | [], _ => []
  | e :: rest, 0 => { data := e.data ++ [dp], lastWriteAt := dp.ts } :: rest
  | e :: rest, i + 1 => e :: writeToEncoderIndex dp rest i

/-- `BufferBucket.write` (buffer.go:1057-1124): returns whether a datapoint
was written, plus the updated bucket. -/
def BufferBucket.write (b : BufferBucket) (timestamp value : Int) :
    Bool × BufferBucket :=
  match writeDecision timestamp value b.encoders 0 with
  | .noop => (false, b)
  | .extend i =>
    (true, { b with encoders := writeToEncoderIndex ⟨timestamp, value⟩ b.encoders i })
  | .newEncoder =>
    (true, { b with
      encoders := b.encoders ++ [{ data := [⟨timestamp, value⟩], lastWriteAt := timestamp }] })

/-- `BufferBucketVersions.writableBucket`: the first bucket with the
writable version and the given write type. -/
def BufferBucketVersions.writableBucket (bv : BufferBucketVersions)
    (writeType : WriteType) : Option BufferBucket :=
  bv.buckets.find? fun bk =>
    bk.version = writableBucketVersion && bk.writeType = writeType

/-- `BufferBucketVersions.write` composed with `writableBucketCreate`
(buffer.go:898-907, 973-984): write into the writable bucket of the given
write type, creating it (appended at the end of the bucket list) when
absent. -/
def BufferBucketVersions.write (bv : BufferBucketVersions)
    (timestamp value : Int) (writeType : WriteType) :
    Bool × BufferBucketVersions :=
  let rec go : List BufferBucket → Bool × List BufferBucket
    | [] =>
      let (w, nb) := (BufferBucket.resetTo bv.start writeType).write timestamp value
      (w, [nb])
    | bk :: rest =>
      if bk.version = writableBucketVersion ∧ bk.writeType = writeType then
        let (w, bk') := bk.write timestamp value
        (w, bk' :: rest)
      else
        let (w, rest') := go rest
        (w, bk :: rest')
  let (w, buckets') := go bv.buckets
  (w, { bv with buckets := buckets' })

/-- `BufferBucketVersions.bootstrap` (buffer.go:958-961): append the block
to the writable bootstrap bucket, creating it when absent. -/
def BufferBucketVersions.bootstrap (bv : BufferBucketVersions)
    (bl : List Datapoint) : BufferBucketVersions :=
  let rec go : List BufferBucket → List BufferBucket
    | [] =>
      let nb := BufferBucket.resetTo bv.start .bootstrapWrite
      [{ nb with bootstrapped := nb.bootstrapped ++ [bl] }]
    | bk :: rest =>
      if bk.version = writableBucketVersion ∧ bk.writeType = .bootstrapWrite then
        { bk with bootstrapped := bk.bootstrapped ++ [bl] } :: rest
      else bk :: go rest
  { bv with buckets := go bv.buckets }

/-! ### Buffer map, cache and sorted blockStart list (buffer.go:735-845) -/

/-- Association-list lookup standing in for the Go map read. -/
def lookupBV (m : List (Int × BufferBucketVersions)) (t : Int) :
    Option BufferBucketVersions :=
  (m.find? fun p => p.1 = t).map (·.2)

/-- Go map assignment `bucketsMap[t] = bv` for a key already present. -/
def setBVMap (m : List (Int × BufferBucketVersions)) (t : Int)
    (bv : BufferBucketVersions) : List (Int × BufferBucketVersions) :=
  m.map fun p => if p.1 = t then (t, bv) else p

/-- Whether a cache slot references the `BufferBucketVersions` whose
`start` equals `t` (the Go code compares `buckets.start.Equal(t)`). -/
def DBuffer.cacheHas (b : DBuffer) (t : Int) : Bool :=
  b.cache0 = some t || b.cache1 = some t

/-- `dbBuffer.bucketVersionsAt` hit test (buffer.go:735-754): first the LRU
cache, then the map. -/
def DBuffer.bucketVersionsFound (b : DBuffer) (t : Int) : Bool :=
  b.cacheHas t || (lookupBV b.bucketsMap t).isSome

/-- `dbBuffer.bucketVersionsAt` (buffer.go:735-754).  A cache hit returns
the cached object, which the buffer maintains as an alias of the map entry
for the same blockStart (the object is dropped from the cache whenever it
is removed from the map), so the value is read from the map. -/
def DBuffer.bucketVersionsAt (b : DBuffer) (t : Int) :
    Option BufferBucketVersions :=
  if b.bucketVersionsFound t then lookupBV b.bucketsMap t else none

/-- `dbBuffer.inOrderBlockStartsAdd` (buffer.go:818-834): insert before the
first strictly later blockStart. -/
def insertBlockStart (t : Int) : List Int → List Int
  | [] => [t]
  | x :: rest => if t < x then t :: x :: rest else x :: insertBlockStart t rest

/-- `dbBuffer.inOrderBlockStartsRemove` (buffer.go:836-845): remove the
first occurrence. -/
def removeBlockStart (t : Int) : List Int → List Int
  | [] => []
  | x :: rest => if x = t then rest else x :: removeBlockStart t rest

/-- A `BufferBucketVersions` reset for first use at a blockStart
(`bucketVersionsPool.Get()` + `resetTo`). -/
def freshBV (t : Int) : BufferBucketVersions :=
  { buckets := [], start := t, lastReadUnixNanos := 0 }

/-- `dbBuffer.bucketVersionsAtCreate` (buffer.go:756-769): get the existing
entry or install a fresh `BufferBucketVersions`, registering the blockStart
in both the map and the in-order list. -/
def DBuffer.bucketVersionsAtCreate (b : DBuffer) (t : Int) : DBuffer :=
  if b.bucketVersionsFound t then b
  else
    { b with
      bucketsMap := b.bucketsMap ++ [(t, freshBV t)]
      inOrderBlockStarts := insertBlockStart t b.inOrderBlockStarts }

/-- `dbBuffer.putBucketVersionsInCache` (buffer.go:771-785): most recently
used first; two slots; hitting the slot at index 0 leaves index 1 alone. -/
def DBuffer.putBucketVersionsInCache (b : DBuffer) (t : Int) : DBuffer :=
  if b.cache1 = some t then { b with cache0 := some t, cache1 := b.cache0 }
  else if b.cache0 = some t then { b with cache0 := some t }
  else { b with cache0 := some t, cache1 := b.cache0 }

/-- `dbBuffer.removeBucketVersionsInCache` (buffer.go:787-803). -/
def DBuffer.removeBucketVersionsInCache (b : DBuffer) (t : Int) : DBuffer :=
  if b.cache1 = some t then { b with cache1 := none }
  else if b.cache0 = some t then { b with cache0 := b.cache1, cache1 := none }
  else b

/-- `dbBuffer.removeBucketVersionsAt` (buffer.go:805-816): drop the entry
from the map, the cache and the sorted list. -/
def DBuffer.removeBucketVersionsAt (b : DBuffer) (t : Int) : DBuffer :=
  if b.bucketVersionsFound t then
    let b' := b.removeBucketVersionsInCache t
    { b' with
      bucketsMap := b'.bucketsMap.eraseP fun p => p.1 = t
      inOrderBlockStarts := removeBlockStart t b'.inOrderBlockStarts }
  else b

/-- `WriteOptions`: the optional transforms of a write
(`TruncateType = TypeBlock`, `ForceValueEnabled`/`ForceValue`). -/
structure WriteOptions where
  truncateToBlock : Bool
  forceValue : Option Int
  deriving DecidableEq, Repr

/-- `dbBuffer.Write` (buffer.go:260-326): classify, create the bucket
versions for the blockStart, refresh the LRU cache, apply the optional
transforms, and dispatch to the writable bucket of the classified write
type. -/
def DBuffer.write (b : DBuffer) (now timestamp value : Int)
    (wopts : WriteOptions) : (Bool × Option WriteError) × DBuffer :=
  match b.classifyWrite now timestamp with
  | .error e => ((false, some e), b)
  | .ok writeType =>
    let blockStart := truncateTime timestamp b.blockSize
    let b1 := b.bucketVersionsAtCreate blockStart
    let b2 := b1.putBucketVersionsInCache blockStart
    let timestamp' := if wopts.truncateToBlock then blockStart else timestamp
    let value' := wopts.forceValue.getD value
    match lookupBV b2.bucketsMap blockStart with
    | none => ((false, none), b2)
    | some bv =>
      let (w, bv') := bv.write timestamp' value' writeType
      ((w, none), { b2 with bucketsMap := setBVMap b2.bucketsMap blockStart bv' })

/-! ### Streams and merges (buffer.go:1143-1350, 879-1006) -/

/-- Errors of the external encoding subsystem (an `Encode` failure or a
multi-reader iterator failure). -/
inductive EncodeError where
  | encodeError
  | iterError
  deriving DecidableEq, Repr

/-- An error surfaced by a bucket's stream merge: either an encoding
error, or the buffer's own `errIncompleteMerge` invariant error. -/
inductive MergeError where
  | enc (e : EncodeError)
  | incompleteMerge
  deriving DecidableEq, Repr

/-- The external `mergeStreamsToEncoder` collaborator (buffer.go:1275-1303):
given the streams (each a list of datapoints) it either fails with an
encode/iterator error or produces the re-encoded datapoints of the merged
chronological stream.  It is a parameter because the encoder subsystem is
out of the specification's scope. -/
abbrev MergeFn := List (List Datapoint) → Except EncodeError (List Datapoint)

/-- The last write time produced by `mergeStreamsToEncoder`'s loop: the
timestamp of the final merged datapoint (the zero time when none). -/
def lastWriteTime (data : List Datapoint) : Int :=
  match data.getLast? with
  | some dp => dp.ts
  | none => 0

/-- `BufferBucket.streamsLen` (buffer.go:1171-1180). -/
def BufferBucket.streamsLen (b : BufferBucket) : Nat :=
  (b.bootstrapped.map List.length).sum + (b.encoders.map (·.data.length)).sum

/-- `BufferBucket.streams` (buffer.go:1143-1169): the streams of the
non-empty bootstrapped blocks followed by those of the non-empty
encoders. -/
def BufferBucket.streams (b : BufferBucket) : List (List Datapoint) :=
  (b.bootstrapped.filter fun bl => ¬ bl.isEmpty) ++
    ((b.encoders.map (·.data)).filter fun d => ¬ d.isEmpty)

/-- `streamsOptions` (buffer.go:1008-1012). -/
structure StreamsOptions where
  filterWriteType : Bool
  writeType : WriteType
  deriving DecidableEq, Repr

/-- `BufferBucketVersions.streams` (buffer.go:879-888). -/
def BufferBucketVersions.streams (bv : BufferBucketVersions)
    (opts : StreamsOptions) : List (List Datapoint) :=
  (bv.buckets.filterMap fun bk =>
    if ¬ opts.filterWriteType ∨ bk.writeType = opts.writeType then
      some bk.streams
    else none).flatten

/-- `BufferBucketVersions.streamsLen` (buffer.go:890-896). -/
def BufferBucketVersions.streamsLen (bv : BufferBucketVersions) : Nat :=
  (bv.buckets.map (·.streamsLen)).sum

/-- `BufferBucket.hasJustSingleEncoder` (buffer.go:1205-1207). -/
def BufferBucket.hasJustSingleEncoder (b : BufferBucket) : Prop :=
  b.encoders.length = 1 ∧ b.bootstrapped.length = 0

instance (b : BufferBucket) : Decidable b.hasJustSingleEncoder := by
  unfold BufferBucket.hasJustSingleEncoder; infer_instance

instance : Inhabited InOrderEncoder := ⟨{ data := [], lastWriteAt := 0 }⟩

/-- `BufferBucket.hasJustSingleBootstrappedBlock` (buffer.go:1209-1213). -/
def BufferBucket.hasJustSingleBootstrappedBlock (b : BufferBucket) : Prop :=
  (b.encoders.length = 0 ∨
    (b.encoders.length = 1 ∧ (b.encoders.headD default).data.length = 0)) ∧
  b.bootstrapped.length = 1

instance (b : BufferBucket) : Decidable b.hasJustSingleBootstrappedBlock := by
  unfold BufferBucket.hasJustSingleBootstrappedBlock; infer_instance

/-- `BufferBucket.needsMerge` (buffer.go:1201-1203). -/
def BufferBucket.needsMerge (b : BufferBucket) : Prop :=
  ¬ (b.hasJustSingleEncoder ∨ b.hasJustSingleBootstrappedBlock)

instance (b : BufferBucket) : Decidable b.needsMerge := by
  unfold BufferBucket.needsMerge; infer_instance

/-- `BufferBucket.merge` (buffer.go:1215-1270): when a merge is needed,
collect the readers of every bootstrapped block and of every non-empty
encoder, hand them to `mergeStreamsToEncoder`, and on success replace the
bucket's contents by the single merged encoder.  On failure the bucket is
returned unchanged (`mergeStreamsToEncoder` fails before `resetEncoders`
or `resetBootstrapped` run).  The first component counts the merged
streams, `0` when no merge happened. -/
def BufferBucket.mergeReaders (b : BufferBucket) : List (List Datapoint) :=
  b.bootstrapped ++ ((b.encoders.map (·.data)).filter fun d => ¬ d.isEmpty)

def BufferBucket.merge (mergeFn : MergeFn) (b : BufferBucket) :
    Except EncodeError Nat × BufferBucket :=
  if ¬ b.needsMerge then (.ok 0, b)
  else
    match mergeFn b.mergeReaders with
    | .error e => (.error e, b)
    | .ok merged =>
      (.ok b.mergeReaders.length,
        { b with
          encoders := [{ data := merged, lastWriteAt := lastWriteTime merged }]
          bootstrapped := [] })

/-- `BufferBucket.mergeToStream` (buffer.go:1307-1350): merge all streams
of the bucket into one.  Returns `none` in place of Go's `ok = false`
(no data).  On a merge failure the bucket's encoders and bootstrapped
blocks are reset before the error is returned. -/
def BufferBucket.mergeToStream (mergeFn : MergeFn) (b : BufferBucket) :
    Except MergeError (Option (List Datapoint)) × BufferBucket :=
  if b.hasJustSingleEncoder then
    let b' := { b with bootstrapped := [] }
    match b.encoders.headD default with
    | e => if e.data.isEmpty then (.ok none, b') else (.ok (some e.data), b')
  else if b.hasJustSingleBootstrappedBlock then
    let b' := { b with encoders := [] }
    (.ok (some (b.bootstrapped.headD [])), b')
  else
    match b.merge mergeFn with
    | (.error e, _) =>
      (.error (.enc e), { b with encoders := [], bootstrapped := [] })
    | (.ok _, b') =>
      if ¬ b'.hasJustSingleEncoder then (.error .incompleteMerge, b')
      else
        match b'.encoders.headD default with
        | e => if e.data.isEmpty then (.ok none, b') else (.ok (some e.data), b')

/-- `BufferBucketVersions.mergeToStreams` over the bucket list
(buffer.go:986-1006): merge each bucket passing the write-type filter into
a single stream, dropping the `none` (no data) cases; the first failure
aborts, leaving the buckets processed so far (and the failing one)
mutated. -/
def mergeToStreamsList (mergeFn : MergeFn) (opts : StreamsOptions) :
    List BufferBucket →
    Except MergeError (List (List Datapoint)) × List BufferBucket
  | [] => (.ok [], [])
  | bk :: rest =>
    if ¬ opts.filterWriteType ∨ bk.writeType = opts.writeType then
      match bk.mergeToStream mergeFn with
      | (.error e, bk') => (.error e, bk' :: rest)
      | (.ok none, bk') =>
        let (r, rest') := mergeToStreamsList mergeFn opts rest
        (r, bk' :: rest')
      | (.ok (some s), bk') =>
        let (r, rest') := mergeToStreamsList mergeFn opts rest
        (r.map (s :: ·), bk' :: rest')
    else
      let (r, rest') := mergeToStreamsList mergeFn opts rest
      (r, bk :: rest')

/-- `BufferBucketVersions.mergeToStreams` (buffer.go:986-1006). -/
def BufferBucketVersions.mergeToStreams (bv : BufferBucketVersions)
    (mergeFn : MergeFn) (opts : StreamsOptions) :
    Except MergeError (List (List Datapoint)) × BufferBucketVersions :=
  ((mergeToStreamsList mergeFn opts bv.buckets).1,
    { bv with buckets := (mergeToStreamsList mergeFn opts bv.buckets).2 })

/-- `BufferBucketVersions.merge` (buffer.go:909-923): merge every writable
bucket of the given write type, stopping at the first error. -/
def mergeBucketList (mergeFn : MergeFn) (writeType : WriteType) :
    List BufferBucket → Except EncodeError Nat × List BufferBucket
  | [] => (.ok 0, [])
  | bk :: rest =>
    if bk.version = writableBucketVersion ∧ writeType = bk.writeType then
      match bk.merge mergeFn with
      | (.error e, bk') => (.error e, bk' :: rest)
      | (.ok n, bk') =>
        match mergeBucketList mergeFn writeType rest with
        | (.error e, rest') => (.error e, bk' :: rest')
        | (.ok m, rest') => (.ok (n + m), bk' :: rest')
    else
      let (r, rest') := mergeBucketList mergeFn writeType rest
      (r, bk :: rest')

def BufferBucketVersions.merge (bv : BufferBucketVersions)
    (mergeFn : MergeFn) (writeType : WriteType) :
    Except EncodeError Nat × BufferBucketVersions :=
  ((mergeBucketList mergeFn writeType bv.buckets).1,
    { bv with buckets := (mergeBucketList mergeFn writeType bv.buckets).2 })

/-- `BufferBucketVersions.removeBucketsUpToVersion` (buffer.go:925-948). -/
def BufferBucketVersions.removeBucketsUpToVersion
    (bv : BufferBucketVersions) (writeType : WriteType) (version : Nat) :
    BufferBucketVersions :=
  { bv with
    buckets := bv.buckets.filter fun bk =>
      ¬ (bk.writeType = writeType ∧ bk.version ≠ writableBucketVersion ∧
        bk.version ≤ version) }

/-- The first bucket with the writable version of the given write type has
its version promoted (`bucket.version = 1` after a warm flush,
`bucket.version = version` in `FetchBlocksForColdFlush`). -/
def promoteWritableList (writeType : WriteType) (v : Nat) :
    List BufferBucket → List BufferBucket
  | [] => []
  | bk :: rest =>
    if bk.version = writableBucketVersion ∧ bk.writeType = writeType then
      { bk with version := v } :: rest
    else bk :: promoteWritableList writeType v rest

def BufferBucketVersions.promoteWritable (bv : BufferBucketVersions)
    (writeType : WriteType) (v : Nat) : BufferBucketVersions :=
  { bv with buckets := promoteWritableList writeType v bv.buckets }

/-! ### Buffer-level operations (buffer.go:335-733) -/

/-- `FlushOutcome`. -/
inductive FlushOutcome where
  | flushedToDisk
  | blockDoesNotExist
  | err
  deriving DecidableEq, Repr

/-- The error returned alongside `FlushOutcomeErr`: either a merge/encode
error or the caller-supplied persist function's failure. -/
inductive FlushError where
  | mergeErr (e : MergeError)
  | persistErr
  deriving DecidableEq, Repr

/-- `dbBuffer.WarmFlush` (buffer.go:508-578).  `persistOk` is the result
of the caller-supplied `persistFn` (external disk I/O): `true` for nil
error.  Merges only the Warm buckets at `blockStart` into streams; a
single stream is persisted directly, several are merged once more through
`mergeStreamsToEncoder`; an empty result means the block does not exist;
only after `persistFn` succeeds is the writable Warm bucket's version set
to `1`. -/
def DBuffer.warmFlush (b : DBuffer) (mergeFn : MergeFn) (persistOk : Bool)
    (blockStart : Int) : (FlushOutcome × Option FlushError) × DBuffer :=
  match b.bucketVersionsAt blockStart with
  | none => ((.blockDoesNotExist, none), b)
  | some bv =>
    let mres := bv.mergeToStreams mergeFn
      { filterWriteType := true, writeType := .warm }
    let b1 := { b with bucketsMap := setBVMap b.bucketsMap blockStart mres.2 }
    match mres.1 with
    | .error e => ((.err, some (.mergeErr e)), b1)
    | .ok streams =>
      let streamOpt : Except MergeError (Option (List Datapoint)) :=
        match streams with
        | [s] => .ok (some s)
        | _ =>
          match mergeFn streams with
          | .error e => .error (.enc e)
          | .ok merged => if merged.isEmpty then .ok none else .ok (some merged)
      match streamOpt with
      | .error e => ((.err, some (.mergeErr e)), b1)
      | .ok none => ((.blockDoesNotExist, none), b1)
      | .ok (some segment) =>
        if segment.length = 0 then ((.blockDoesNotExist, none), b1)
        else if ¬ persistOk then ((.err, some .persistErr), b1)
        else
          let bv2 := mres.2.promoteWritable .warm 1
          ((.flushedToDisk, none),
            { b1 with bucketsMap := setBVMap b1.bucketsMap blockStart bv2 })

/-- `dbBuffer.fetchBlocks` (buffer.go:662-684) restricted to what the cold
flush path needs: one `FetchBlockResult` per requested start that has
matching streams.  (The ascending sort is the identity for the singleton
start list used by `FetchBlocksForColdFlush`.) -/
def DBuffer.fetchBlocks (b : DBuffer) (starts : List Int)
    (opts : StreamsOptions) : List (Int × List (List Datapoint)) :=
  starts.filterMap fun start =>
    match b.bucketVersionsAt start with
    | none => none
    | some bv =>
      let streams := bv.streams opts
      if streams.isEmpty then none else some (start, streams)

/-- The errors of `dbBuffer.FetchBlocksForColdFlush` (buffer.go:622-656). -/
inductive ColdFlushFetchError where
  | notOneBlock
  | bucketsDoNotExist
  | writableBucketDoesNotExist
  deriving DecidableEq, Repr

/-- `dbBuffer.FetchBlocksForColdFlush` (buffer.go:622-656): fetch the
merged cold-only streams for `start`; an empty fetch result returns
`(nil, nil)` (the data has fallen out of retention); otherwise the
writable Cold bucket is promoted to `version`, erroring when the bucket
versions or the writable cold bucket are missing. -/
def DBuffer.fetchBlocksForColdFlush (b : DBuffer) (start : Int)
    (version : Nat) :
    Except ColdFlushFetchError (List (List Datapoint)) × DBuffer :=
  let res := b.fetchBlocks [start]
    { filterWriteType := true, writeType := .cold }
  if res.length = 0 then (.ok [], b)
  else if res.length ≠ 1 then (.error .notOneBlock, b)
  else
    let blocks := (res.headD (0, [])).2
    match lookupBV b.bucketsMap start, b.bucketVersionsFound start with
    | some bv, true =>
      match bv.writableBucket .cold with
      | some _ =>
        let bv' := bv.promoteWritable .cold version
        (.ok blocks, { b with bucketsMap := setBVMap b.bucketsMap start bv' })
      | none => (.error .writableBucketDoesNotExist, b)
    | _, _ => (.error .bucketsDoNotExist, b)

/-- `dbBuffer.ReadEncoded` (buffer.go:580-620): walk the in-order
blockStart list; for each blockStart overlapping `[start, end)` resolve
its bucket versions — a resolution failure is the
`BucketMapCacheNotInSync` invariant violation — collect its streams and
stamp its last-read time. -/
inductive ReadInvariantError where
  | bucketMapCacheNotInSync (blockStart : Int)
  deriving DecidableEq, Repr

/-- Replace the bucket versions stored at `t`. -/
def DBuffer.setAtBV (b : DBuffer) (t : Int) (bv : BufferBucketVersions) :
    DBuffer :=
  { b with bucketsMap := setBVMap b.bucketsMap t bv }

/-- A `BufferBucketVersions` with its last-read time stamped
(`buckets.setLastRead(now)` in the `ReadEncoded` loop). -/
def readStampBV (now : Int) (bv : BufferBucketVersions) :
    BufferBucketVersions :=
  { bv with lastReadUnixNanos := now }

def readEncodedLoop (now rstart rend blockSize : Int) :
    List Int → DBuffer →
    (Except ReadInvariantError (List (List (List Datapoint)))) × DBuffer
  | [], b => (.ok [], b)
  | blockStart :: rest, b =>
    if ¬ (blockStart < rend ∧ rstart < blockStart + blockSize) then
      readEncodedLoop now rstart rend blockSize rest b
    else if ¬ b.bucketVersionsFound blockStart then
      (.error (.bucketMapCacheNotInSync blockStart), b)
    else
      match lookupBV b.bucketsMap blockStart with
      | none => (.error (.bucketMapCacheNotInSync blockStart), b)
      | some bv =>
        let streams := bv.streams { filterWriteType := false, writeType := .warm }
        let b' := b.setAtBV blockStart (readStampBV now bv)
        let res := readEncodedLoop now rstart rend blockSize rest b'
        if streams.isEmpty then res
        else (res.1.map (streams :: ·), res.2)

def DBuffer.readEncoded (b : DBuffer) (now rstart rend : Int) :
    (Except ReadInvariantError (List (List (List Datapoint)))) × DBuffer :=
  readEncodedLoop now rstart rend b.blockSize b.inOrderBlockStarts b

/-- `BlockState` (shard flush state passed into `Tick` and
`ColdFlushBlockStarts`). -/
structure BlockState where
  warmRetrievable : Bool
  coldVersion : Nat
  deriving DecidableEq, Repr

/-- The body of `dbBuffer.Tick` for a single map entry
(buffer.go:369-420): evict flushed buckets, remove the whole entry when no
streams remain, otherwise merge duplicate Warm encoders (merge errors are
only logged). -/
def DBuffer.tickEntry (b : DBuffer) (mergeFn : MergeFn)
    (blockStates : Int → BlockState) (t : Int) : DBuffer × Bool :=
  match lookupBV b.bucketsMap t with
  | none => (b, false)
  | some bv =>
    let st := blockStates t
    let flushedCond := st.warmRetrievable ∨ st.coldVersion > 0
    let bv1 := if st.warmRetrievable then bv.removeBucketsUpToVersion .warm 1 else bv
    let bv2 := if st.coldVersion > 0 then bv1.removeBucketsUpToVersion .cold st.coldVersion else bv1
    if flushedCond ∧ bv2.streamsLen = 0 then
      (({ b with bucketsMap := setBVMap b.bucketsMap t bv2 }).removeBucketVersionsAt t, true)
    else
      ({ b with bucketsMap :=
        setBVMap b.bucketsMap t (bv2.merge mergeFn .warm).2 }, false)

/-- `dbBuffer.Tick` (buffer.go:366-425): iterate over the entries of the
buckets map (the Go map iteration is modelled by the association-list
order), returning the evicted bucket times. -/
def DBuffer.tick (b : DBuffer) (mergeFn : MergeFn)
    (blockStates : Int → BlockState) : DBuffer × List Int :=
  (b.bucketsMap.map (·.1)).foldl
    (fun (acc : DBuffer × List Int) t =>
      let (b', evicted) := acc.1.tickEntry mergeFn blockStates t
      (b', if evicted then acc.2 ++ [t] else acc.2))
    (b, [])

/-- `dbBuffer.Bootstrap` (buffer.go:427-431): route the bootstrapped block
to the bootstrap bucket of its blockStart. -/
def DBuffer.bootstrapBlock (b : DBuffer) (blockStart : Int)
    (bl : List Datapoint) : DBuffer :=
  let b1 := b.bucketVersionsAtCreate blockStart
  match lookupBV b1.bucketsMap blockStart with
  | none => b1
  | some bv =>
    { b1 with bucketsMap := setBVMap b1.bucketsMap blockStart (bv.bootstrap bl) }

/-! ### Seeker manager (seek_manager.go)

A `ConcurrentDataFileSetSeeker` is identified by a `Nat` id standing for Go
pointer identity (`seeker == compareSeeker.seeker` compares pointers); the
`closed` flag models the state of the shared seeker object after `Close()`.
Mutations of `isBorrowed` and `closed` go through the slices shared with
the `byTime.seekers` map and therefore persist; `Return`'s final
`seekers.inactive = seekersAndBloom{}` only clears a local struct copy and
is accordingly not reflected in the map. -/

structure BorrowableSeeker where
  id : Nat
  isBorrowed : Bool
  closed : Bool
  deriving DecidableEq, Repr

/-- `seekersAndBloom`: the seekers of one volume (one original plus
`fetchConcurrency - 1` clones); `hasWaitGroup` records whether `wg` is
non-nil. -/
structure SeekersAndBloom where
  seekers : List BorrowableSeeker
  volume : Int
  hasWaitGroup : Bool
  deriving DecidableEq, Repr

/-- The Go zero value `seekersAndBloom{}`. -/
def emptySeekersAndBloom : SeekersAndBloom :=
  { seekers := [], volume := 0, hasWaitGroup := false }

/-- `rotatableSeekers`. -/
structure RotatableSeekers where
  active : SeekersAndBloom
  inactive : SeekersAndBloom
  deriving DecidableEq, Repr

/-- `seekersByTime` for one shard. -/
structure SeekersByTime where
  shard : Nat
  accessed : Bool
  seekers : List (Int × RotatableSeekers)
  deriving DecidableEq, Repr

inductive SeekerManagerStatus where
  | notOpen
  | opened
  | closed
  deriving DecidableEq, Repr

structure SeekerManager where
  status : SeekerManagerStatus
  isUpdatingLease : Bool
  shards : List SeekersByTime
  deriving DecidableEq, Repr

inductive SeekerManagerError where
  | alreadyOpenOrClosed
  | alreadyClosed
  | fileSetNotFound
  | noAvailableSeekers
  | seekersDontExist
  | cantCloseWhileBorrowed
  | returnedUnmanagedSeeker
  | updateOpenLeaseNotOpen
  | concurrentUpdateOpenLeaseNotAllowed
  | outOfOrderUpdateOpenLease
  deriving DecidableEq, Repr

/-- `block.UpdateOpenLeaseResult`. -/
inductive UpdateOpenLeaseResult where
  | noOpenLease
  | updateOpenLease
  deriving DecidableEq, Repr

def lookupRS (m : List (Int × RotatableSeekers)) (t : Int) :
    Option RotatableSeekers :=
  (m.find? fun p => p.1 = t).map (·.2)

def setRS (m : List (Int × RotatableSeekers)) (t : Int)
    (rs : RotatableSeekers) : List (Int × RotatableSeekers) :=
  m.map fun p => if p.1 = t then (t, rs) else p

/-- Clear `isBorrowed` on the first seeker with the given identity;
`none` when no slot matches. -/
def clearBorrowed (sid : Nat) :
    List BorrowableSeeker → Option (List BorrowableSeeker)
  | [] => none
  | s :: rest =>
    if s.id = sid then some ({ s with isBorrowed := false } :: rest)
    else (clearBorrowed sid rest).map (s :: ·)

/-- `seekerManager.returnSeekerWithLock` (seek_manager.go:297-347): search
`active` first, then `inactive`; the return of the last borrowed inactive
seeker closes every inactive seeker (the local struct clear of
`seekers.inactive` does not reach the map). -/
def returnSeekerWithLock (rs : RotatableSeekers) (sid : Nat) :
    Bool × RotatableSeekers :=
  match clearBorrowed sid rs.active.seekers with
  | some act' => (true, { rs with active := { rs.active with seekers := act' } })
  | none =>
    match clearBorrowed sid rs.inactive.seekers with
    | none => (false, rs)
    | some inact' =>
      if inact'.any (·.isBorrowed) then
        (true, { rs with inactive := { rs.inactive with seekers := inact' } })
      else
        (true, { rs with inactive :=
          { rs.inactive with
            seekers := inact'.map fun s => { s with closed := true } } })

/-- The `map[xtime.UnixNano]rotatableSeekers` of the `seekersByTime` that
`seekerManager.seekersByTime(shard)` resolves (empty when the shard has
no entry yet). -/
def SeekerManager.shardSeekers (m : SeekerManager) (shard : Nat) :
    List (Int × RotatableSeekers) :=
  ((m.shards.find? fun bt => bt.shard = shard).map (·.seekers)).getD []

/-- `seekerManager.Return` (seek_manager.go:266-293). -/
def SeekerManager.returnSeeker (m : SeekerManager) (shard : Nat)
    (start : Int) (sid : Nat) : Option SeekerManagerError × SeekerManager :=
  let byTimeSeekers := m.shardSeekers shard
  match lookupRS byTimeSeekers start with
  | none => (some .seekersDontExist, m)
  | some rs =>
    let res := returnSeekerWithLock rs sid
    if ¬ res.1 then (some .returnedUnmanagedSeeker, m)
    else
      (none, { m with shards := m.shards.map fun bt =>
        if bt.shard = shard then
          { bt with seekers := setRS bt.seekers start res.2 }
        else bt })

/-- The outcome of `seekerManager.updateOpenLeaseHotSwapSeekers`
(seek_manager.go:432-488).  `newSeekersAfter` is the final state of the
newly opened seeker objects (closed in the out-of-order error case);
`wgCreated` records whether an inactive waitgroup was installed for
borrowed previous-volume seekers. -/
structure HotSwapOutcome where
  err : Option SeekerManagerError
  result : UpdateOpenLeaseResult
  wgCreated : Bool
  newSeekersAfter : List BorrowableSeeker
  seekersMap : List (Int × RotatableSeekers)
  deriving DecidableEq, Repr

/-- `seekerManager.updateOpenLeaseHotSwapSeekers` (seek_manager.go:432-488)
restricted to one `seekersByTime` map: the new seekers for `state.Volume`
have already been opened (`newSeekers`, none borrowed, fresh objects).  No
existing entry installs the new set as `active` with result `NoOpenLease`;
an existing entry whose active volume is greater than the incoming one
closes the new seekers and fails with `OutOfOrderUpdateOpenLease`;
otherwise the active set rotates to `inactive` (gaining a waitgroup when
any of its seekers is still borrowed) and the new set becomes `active`. -/
def updateOpenLeaseHotSwapSeekers
    (byTimeSeekers : List (Int × RotatableSeekers)) (blockStart : Int)
    (stateVolume : Int) (newSeekers : List BorrowableSeeker) :
    HotSwapOutcome :=
  let newActive : SeekersAndBloom :=
    { seekers := newSeekers, volume := stateVolume, hasWaitGroup := false }
  match lookupRS byTimeSeekers blockStart with
  | none =>
    { err := none, result := .noOpenLease, wgCreated := false
      newSeekersAfter := newSeekers
      seekersMap := byTimeSeekers ++
        [(blockStart, { active := newActive, inactive := emptySeekersAndBloom })] }
  | some rs =>
    if rs.active.volume > stateVolume then
      { err := some .outOfOrderUpdateOpenLease, result := .noOpenLease
        wgCreated := false
        newSeekersAfter := newSeekers.map fun s => { s with closed := true }
        seekersMap := byTimeSeekers }
    else
      let anyBorrowed := rs.active.seekers.any (·.isBorrowed)
      let rs' : RotatableSeekers :=
        { active := newActive
          inactive := { rs.active with hasWaitGroup := anyBorrowed } }
      { err := none, result := .updateOpenLease, wgCreated := anyBorrowed
        newSeekersAfter := newSeekers
        seekersMap := setRS byTimeSeekers blockStart rs' }

/-- Whether any seeker (active or inactive) of any entry is borrowed: the
scan of `seekerManager.Close` (seek_manager.go:770-792). -/
def SeekerManager.anyBorrowed (m : SeekerManager) : Bool :=
  m.shards.any fun bt => bt.seekers.any fun p =>
    p.2.active.seekers.any (·.isBorrowed) ||
      p.2.inactive.seekers.any (·.isBorrowed)

/-- `seekerManager.Close` (seek_manager.go:760-807) up to the handoff to
the open/close loop: refuse when already closed or while any seeker is
borrowed; otherwise the status transitions to closed. -/
def SeekerManager.close (m : SeekerManager) :
    Option SeekerManagerError × SeekerManager :=
  if m.status = .closed then (some .alreadyClosed, m)
  else if m.anyBorrowed then (some .cantCloseWhileBorrowed, m)
  else (none, { m with status := .closed })

/-- The final drain of `seekerManager.openCloseLoop`
(seek_manager.go:937-966), which runs once the status is no longer open:
close every active and inactive seeker of every entry and release the
per-shard structures.  Returns the closed seeker objects. -/
def SeekerManager.heldSeekers (m : SeekerManager) : List BorrowableSeeker :=
  m.shards.flatMap fun bt => bt.seekers.flatMap fun p =>
    p.2.active.seekers ++ p.2.inactive.seekers

def SeekerManager.drain (m : SeekerManager) :
    List BorrowableSeeker × SeekerManager :=
  (m.heldSeekers.map fun s => { s with closed := true }, { m with shards := [] })

/-- `Close` composed with the loop exit it unblocks (Close waits on
`openCloseLoopDoneCh` before returning). -/
def SeekerManager.closeAndDrain (m : SeekerManager) :
    Option SeekerManagerError × List BorrowableSeeker × SeekerManager :=
  match m.close with
  | (some e, m') => (some e, [], m')
  | (none, m') =>
    let (closedSeekers, m'') := m'.drain
    (none, closedSeekers, m'')

/-! ### Namespace index query traversal

`nsIndex.Query` itself is not among the provided sources (only its test,
`TestNamespaceIndexBlockQuery`, and the `namespaceIndex` interface are),
so the traversal is modelled from the specification. -/

/-- An index block as the query traversal sees it: its blockStart, and the
`(exhaustive, error-free)` outcome its `Query` method reports for the
present query (the block interface is an external collaborator). -/
structure IdxBlock where
  start : Int
  exhaustive : Bool
  deriving DecidableEq, Repr

/-- Whether a block's `[start, start+blockSize)` intersects the query's
`[startInclusive, endExclusive)`. -/
def blockIntersects (blockSize qs qe : Int) (blk : IdxBlock) : Prop :=
  blk.start < qe ∧ qs < blk.start + blockSize

instance (blockSize qs qe : Int) (blk : IdxBlock) :
    Decidable (blockIntersects blockSize qs qe blk) := by
  unfold blockIntersects; infer_instance

/-- Modelled from the spec: `nsIndex.Query`'s block traversal (spec §4.2;
the function's Go source is absent from the provided files).  "Scans
blocks whose `[start,end)` intersects `opts.[startInclusive,
endExclusive)` in descending blockStart order.  Stops early when a block
reports `exhaustive = false`.  Final result carries `exhaustive = AND
over visited blocks."  `blocks` is `blockStartsDescOrder` resolved through
`blocksByTime`, i.e. already in descending order; the result is the list
of visited blockStarts (in visit order) paired with the overall
exhaustive flag. -/
def nsIndexQuery (blockSize qs qe : Int) :
    List IdxBlock → List Int × Bool
  | [] => ([], true)
  | blk :: rest =>
    if blockIntersects blockSize qs qe blk then
      if blk.exhaustive then
        let (visited, exhaustive) := nsIndexQuery blockSize qs qe rest
        (blk.start :: visited, exhaustive)
      else ([blk.start], false)
    else nsIndexQuery blockSize qs qe rest

/-- The blocks a query should touch if no early termination happened: the
intersecting ones, in the given (descending) order. -/
def intersectingStarts (blockSize qs qe : Int) (blocks : List IdxBlock) :
    List IdxBlock :=
  blocks.filter fun blk => decide (blockIntersects blockSize qs qe blk)

/-- Visit a descending candidate list up to and including the first
non-exhaustive block. -/
def takeUntilNonExhaustive : List IdxBlock → List IdxBlock
  | [] => []
  | blk :: rest =>
    if blk.exhaustive then blk :: takeUntilNonExhaustive rest
    else [blk]

/-! ## Claim C1: write classification -/

/-- The classification exactly as claim C1 words it (for comparison with
the code): Warm on the half-open window `[now - bufferPast,
now + bufferFuture)` closed on the left; otherwise Cold with the
cold-writes-disabled and retention failures. -/
def claimC1Classification (b : DBuffer) (now timestamp : Int) :
    Except WriteError WriteType :=
  if now - b.bufferPast ≤ timestamp ∧ timestamp < now + b.bufferFuture then
    .ok .warm
  else if ¬ b.coldWritesEnabled then .error .invalidParams
  else if timestamp < now - b.retentionPeriod then .error .tooPast
  else if now + b.futureRetentionPeriod + b.blockSize ≤ timestamp then
    .error .tooFuture
  else .ok .cold

/-- The amended classification: the Warm window is open on the left,
`(now - bufferPast, now + bufferFuture)` — a timestamp equal to
`now - bufferPast` is a Cold write. -/
def amendedC1Classification (b : DBuffer) (now timestamp : Int) :
    Except WriteError WriteType :=
  if now - b.bufferPast < timestamp ∧ timestamp < now + b.bufferFuture then
    .ok .warm
  else if ¬ b.coldWritesEnabled then .error .invalidParams
  else if timestamp < now - b.retentionPeriod then .error .tooPast
  else if now + b.futureRetentionPeriod + b.blockSize ≤ timestamp then
    .error .tooFuture
  else .ok .cold

/-- A buffer configuration used by the concrete counterexamples. -/
def cexBuffer : DBuffer :=
  { bucketsMap := [], cache0 := none, cache1 := none,
    inOrderBlockStarts := [], blockSize := 10, bufferPast := 100,
    bufferFuture := 100, coldWritesEnabled := false,
    retentionPeriod := 10000, futureRetentionPeriod := 100 }

/-- A concrete seekers map whose single entry has `active.volume = 2`. -/
def c2Map : List (Int × RotatableSeekers) :=
  [(0, { active := { seekers := [{ id := 1, isBorrowed := false, closed := false }],
                     volume := 2, hasWaitGroup := false },
         inactive := emptySeekersAndBloom })]

/-! ## Claim C10: Return error taxonomy and slot discipline -/

def seekerIds (l : List BorrowableSeeker) : List Nat := l.map (·.id)

def borrowFlags (l : List BorrowableSeeker) : List Bool := l.map (·.isBorrowed)

/-- The borrowed-state change performed by a matching return: the seeker
identities are untouched and the borrowed flags change at exactly the
first slot holding the returned seeker, which becomes un-borrowed. -/
def BorrowClearedAt (sid : Nat) (l l' : List BorrowableSeeker) : Prop :=
  seekerIds l' = seekerIds l ∧
  ∃ i, (seekerIds l)[i]? = some sid ∧
    (∀ j, j < i → (seekerIds l)[j]? ≠ some sid) ∧
    borrowFlags l' = (borrowFlags l).set i false

/-- The rotation entry used by the C10 witness: a single borrowed active
seeker with identity 5. -/
def c10Entry : RotatableSeekers :=
  ⟨⟨[⟨5, true, false⟩], 1, false⟩, emptySeekersAndBloom⟩

/-- A concrete manager with one shard holding the entry `c10Entry` at
blockStart 0. -/
def c10Manager : SeekerManager :=
  ⟨.opened, false, [⟨0, true, [(0, c10Entry)]⟩]⟩

/-- A concrete open manager holding one unborrowed seeker (id 3). -/
def c7Manager : SeekerManager :=
  ⟨.opened, false, [⟨0, true, [(0, ⟨⟨[⟨3, false, false⟩], 1, false⟩,
    emptySeekersAndBloom⟩)]⟩]⟩

/-- A concrete open manager holding one borrowed seeker (id 4). -/
def c7ManagerBorrowed : SeekerManager :=
  ⟨.opened, false, [⟨0, true, [(0, ⟨⟨[⟨4, true, false⟩], 1, false⟩,
    emptySeekersAndBloom⟩)]⟩]⟩

/-! ## Claim C9: when a bucket merges -/

/-- The merge condition exactly as claim C9 words it: more than one
encoder, or a mix of bootstrapped blocks and at least one encoder. -/
def claimC9NeedsMerge (b : BufferBucket) : Prop :=
  1 < b.encoders.length ∨
    (1 ≤ b.bootstrapped.length ∧ 1 ≤ b.encoders.length)

instance (b : BufferBucket) : Decidable (claimC9NeedsMerge b) := by
  unfold claimC9NeedsMerge; infer_instance

/-- A freshly bootstrapped bucket: the single empty encoder installed by
`resetTo` plus one bootstrapped block. -/
def c9Bucket : BufferBucket :=
  { start := 0, encoders := [{ data := [], lastWriteAt := 0 }],
    bootstrapped := [[⟨1, 2⟩]], version := writableBucketVersion,
    writeType := .bootstrapWrite }

/-- A merge function stand-in used by concrete counterexamples: always
succeeds, concatenating the streams. -/
def concatMergeFn : MergeFn := fun ss => .ok ss.flatten

/-! ## Claim C3: failure semantics of bucket merges -/

/-- A merge function stand-in whose encode step always fails. -/
def failMergeFn : MergeFn := fun _ => .error .encodeError

/-- A warm writable bucket holding two non-empty encoders. -/
def c3Bucket : BufferBucket :=
  { start := 0,
    encoders := [{ data := [⟨1, 1⟩], lastWriteAt := 1 },
                 { data := [⟨2, 2⟩], lastWriteAt := 2 }],
    bootstrapped := [], version := writableBucketVersion,
    writeType := .warm }

/-- The streams options `WarmFlush` passes to `mergeToStreams`. -/
def warmStreamOpts : StreamsOptions :=
  { filterWriteType := true, writeType := .warm }

/-- The bucket versions left at a blockStart after `WarmFlush` has merged
its Warm buckets to streams. -/
def warmMergedBV (bv : BufferBucketVersions) (mergeFn : MergeFn) :
    BufferBucketVersions :=
  (bv.mergeToStreams mergeFn warmStreamOpts).2

/-- The pointwise relation claim C4 asserts between the buckets of the
flushed blockStart before and after `WarmFlush`: write types and starts
are untouched, non-Warm buckets are untouched entirely, and a bucket's
version changes only — and exactly — when the flush succeeded and the
bucket was the writable Warm bucket, in which case it becomes `1`. -/
def C4BucketRel (outcome : FlushOutcome) (bk bk' : BufferBucket) : Prop :=
  bk'.writeType = bk.writeType ∧ bk'.start = bk.start ∧
  (¬ bk.writeType = .warm → bk' = bk) ∧
  bk'.version = (if outcome = .flushedToDisk ∧
    bk.version = writableBucketVersion ∧ bk.writeType = .warm
    then 1 else bk.version)

/-- Concrete inputs for the C4 witness: a buffer holding one warm
writable bucket with one non-empty encoder at blockStart 0. -/
def c4Bucket0 : BufferBucket :=
  { start := 0, encoders := [{ data := [⟨1, 5⟩], lastWriteAt := 1 }],
    bootstrapped := [], version := writableBucketVersion,
    writeType := .warm }

def c4BV : BufferBucketVersions :=
  { buckets := [c4Bucket0], start := 0, lastReadUnixNanos := 0 }

def c4Buffer : DBuffer :=
  { bucketsMap := [(0, c4BV)], cache0 := some 0, cache1 := none,
    inOrderBlockStarts := [0], blockSize := 10, bufferPast := 100,
    bufferFuture := 100, coldWritesEnabled := true,
    retentionPeriod := 10000, futureRetentionPeriod := 100 }

/-! ## Claim C5: FetchBlocksForColdFlush -/

/-- The streams options of the cold flush fetch path. -/
def coldStreamOpts : StreamsOptions :=
  { filterWriteType := true, writeType := .cold }

/-- Concrete inputs for the C5 witness: one writable cold bucket with
data at blockStart 0. -/
def c5Bucket : BufferBucket :=
  { start := 0, encoders := [{ data := [⟨1, 5⟩], lastWriteAt := 1 }],
    bootstrapped := [], version := writableBucketVersion,
    writeType := .cold }

def c5BV : BufferBucketVersions :=
  { buckets := [c5Bucket], start := 0, lastReadUnixNanos := 0 }

def c5Buffer : DBuffer :=
  { bucketsMap := [(0, c5BV)], cache0 := none, cache1 := none,
    inOrderBlockStarts := [0], blockSize := 10, bufferPast := 100,
    bufferFuture := 100, coldWritesEnabled := true,
    retentionPeriod := 10000, futureRetentionPeriod := 100 }

/-! ## Claim C6: bucket-map / sorted-list / LRU coherence -/

/-- The key list of the buckets map. -/
def DBuffer.keys (b : DBuffer) : List Int := b.bucketsMap.map (·.1)

/-- The coherence invariant tying together the buckets map, the sorted
in-order blockStart list and the two-slot LRU cache: the list holds
exactly the map's keys in strictly increasing order (keys unduplicated),
and every cache slot references a live map entry (the two slots never
alias the same entry). -/
def Coherent (b : DBuffer) : Prop :=
  (∀ t, t ∈ b.inOrderBlockStarts ↔ t ∈ b.keys) ∧
  b.inOrderBlockStarts.Pairwise (· < ·) ∧
  b.keys.Nodup ∧
  (∀ t, b.cacheHas t = true → t ∈ b.keys) ∧
  (∀ t, ¬ (b.cache0 = some t ∧ b.cache1 = some t))

/-- The plain write options (no truncation, no forced value). -/
def c6WriteOpts : WriteOptions :=
  { truncateToBlock := false, forceValue := none }

/-- The buffer after three warm writes at blockStarts 900, 910, 920. -/
def c6After : DBuffer :=
  (((cexBuffer.write 1000 905 1 c6WriteOpts).2.write 1000 915 2
      c6WriteOpts).2.write 1000 925 3 c6WriteOpts).2

/-! ### Theorems -/

/-- Claim C1 is false at the left boundary of the warm window: with
`now = 1000` and `bufferPast = 100`, a write at `timestamp = 900 =
now - bufferPast` is classified Cold by the code (`!pastLimit.Before(
timestamp)` includes equality) and, cold writes being disabled, fails
with `InvalidParam` — while the claim's window `[now - bufferPast,
now + bufferFuture)` declares it Warm. -/
theorem c1_claim_counterexample :
    cexBuffer.classifyWrite 1000 900 = .error .invalidParams ∧
      claimC1Classification cexBuffer 1000 900 = .ok .warm ∧
      (cexBuffer.write 1000 900 5
        { truncateToBlock := false, forceValue := none }).1 =
        (false, some .invalidParams) :=
  ⟨rfl, rfl, rfl⟩

/-- Amended claim C1: with now the injected clock value, a timestamp in
the open-left window `(now - bufferPast, now + bufferFuture)` is
classified Warm; any other timestamp is Cold — failing `InvalidParam`
when cold writes are disabled, `ErrTooPast` when `timestamp <
now - retentionPeriod`, and `ErrTooFuture` when `timestamp ≥
now + futureRetentionPeriod + blockSize` — and `Write` surfaces exactly
that classification error. -/
theorem c1_write_classification (b : DBuffer) (now timestamp value : Int)
    (wopts : WriteOptions) :
    b.classifyWrite now timestamp = amendedC1Classification b now timestamp ∧
      (b.write now timestamp value wopts).1.2 =
        (match amendedC1Classification b now timestamp with
          | .error e => some e
          | .ok _ => none) := by
  have hcls : b.classifyWrite now timestamp =
      amendedC1Classification b now timestamp := by
    unfold DBuffer.classifyWrite amendedC1Classification
      DBuffer.coldRetentionCheck
    dsimp only
    split_ifs <;> first | rfl | omega
  refine ⟨hcls, ?_⟩
  rw [← hcls]
  unfold DBuffer.write
  cases b.classifyWrite now timestamp with
  | error e => rfl
  | ok wt =>
    dsimp only
    split <;> rfl

/-! ## Claim C2: out-of-order lease updates -/

theorem lookupRS_setRS (m : List (Int × RotatableSeekers)) (t : Int)
    (rs' : RotatableSeekers) (h : (lookupRS m t).isSome) :
    lookupRS (setRS m t rs') t = some rs' := by
  induction m with
  | nil => simp [lookupRS] at h
  | cons p rest ih =>
    by_cases hp : p.1 = t
    · simp [lookupRS, setRS, List.find?_cons, hp]
    · simp only [lookupRS, setRS, List.map_cons, if_neg hp] at *
      rw [List.find?_cons_of_neg _ (by simpa using hp)] at h ⊢
      exact ih h

/-- Claim C2 is false for an incoming volume equal to the active one:
with `active.volume = 2` and `state.Volume = 2` the code rotates to the
new seekers (active set replaced, no error, result `UpdateOpenLease`),
because the guard is `active.volume > state.Volume`, strict — while the
claim demands `OutOfOrderUpdateOpenLease` and an unchanged active set for
`active.volume ≥ state.Volume`. -/
theorem c2_claim_counterexample :
    (updateOpenLeaseHotSwapSeekers c2Map 0 2
        [{ id := 7, isBorrowed := false, closed := false }]).err = none ∧
    (updateOpenLeaseHotSwapSeekers c2Map 0 2
        [{ id := 7, isBorrowed := false, closed := false }]).result =
      .updateOpenLease ∧
    (lookupRS (updateOpenLeaseHotSwapSeekers c2Map 0 2
        [{ id := 7, isBorrowed := false, closed := false }]).seekersMap 0).map
        (fun rs => rs.active.seekers) =
      some [{ id := 7, isBorrowed := false, closed := false }] :=
  ⟨rfl, rfl, rfl⟩

/-- Amended claim C2: with an existing seekers entry, the update closes
the newly opened seekers, returns `OutOfOrderUpdateOpenLease` and leaves
the seekers map unchanged exactly when `active.volume > state.Volume`
(strictly); for `active.volume ≤ state.Volume` it rotates, installing the
new seekers as active and the previous active set as inactive (with a
waitgroup exactly when one of its seekers is still borrowed). -/
theorem c2_update_open_lease_hot_swap
    (m : List (Int × RotatableSeekers)) (t stateVolume : Int)
    (ns : List BorrowableSeeker) (rs : RotatableSeekers)
    (hrs : lookupRS m t = some rs) :
    (rs.active.volume > stateVolume →
      (updateOpenLeaseHotSwapSeekers m t stateVolume ns).err =
          some .outOfOrderUpdateOpenLease ∧
        (updateOpenLeaseHotSwapSeekers m t stateVolume ns).seekersMap = m ∧
        ∀ s ∈ (updateOpenLeaseHotSwapSeekers m t stateVolume ns).newSeekersAfter,
          s.closed = true) ∧
    (rs.active.volume ≤ stateVolume →
      (updateOpenLeaseHotSwapSeekers m t stateVolume ns).err = none ∧
        (updateOpenLeaseHotSwapSeekers m t stateVolume ns).result =
          .updateOpenLease ∧
        lookupRS (updateOpenLeaseHotSwapSeekers m t stateVolume ns).seekersMap t =
          some { active := { seekers := ns, volume := stateVolume,
                             hasWaitGroup := false }
                 inactive := { rs.active with
                   hasWaitGroup := rs.active.seekers.any (·.isBorrowed) } }) := by
  constructor
  · intro hgt
    unfold updateOpenLeaseHotSwapSeekers
    rw [hrs]
    simp only [if_pos hgt]
    refine ⟨trivial, trivial, ?_⟩
    intro s hs
    simp only [List.mem_map] at hs
    obtain ⟨s', _, rfl⟩ := hs
    rfl
  · intro hle
    unfold updateOpenLeaseHotSwapSeekers
    rw [hrs]
    simp only [if_neg (by omega : ¬ rs.active.volume > stateVolume)]
    refine ⟨trivial, trivial, ?_⟩
    exact lookupRS_setRS m t _ (by simp [hrs])

/-- Witness: applying the amended C2 theorem at `active.volume = 2`,
incoming volume `1`. -/
theorem c2_update_open_lease_hot_swap_witness :
    (updateOpenLeaseHotSwapSeekers c2Map 0 1
        [{ id := 7, isBorrowed := false, closed := false }]).err =
      some .outOfOrderUpdateOpenLease ∧
    (updateOpenLeaseHotSwapSeekers c2Map 0 1
        [{ id := 7, isBorrowed := false, closed := false }]).seekersMap = c2Map :=
  let h := c2_update_open_lease_hot_swap c2Map 0 1
    [{ id := 7, isBorrowed := false, closed := false }]
    { active := { seekers := [{ id := 1, isBorrowed := false, closed := false }],
                  volume := 2, hasWaitGroup := false },
      inactive := emptySeekersAndBloom } rfl
  ⟨(h.1 (by norm_num)).1, (h.1 (by norm_num)).2.1⟩

theorem clearBorrowed_eq_none (sid : Nat) (l : List BorrowableSeeker) :
    clearBorrowed sid l = none ↔ sid ∉ seekerIds l := by
  induction l with
  | nil => simp [clearBorrowed, seekerIds]
  | cons s rest ih =>
    rw [clearBorrowed]
    by_cases hs : s.id = sid
    · rw [if_pos hs]
      simp [seekerIds, hs]
    · rw [if_neg hs]
      constructor
      · intro h
        have h0 : clearBorrowed sid rest = none := by
          cases hc : clearBorrowed sid rest with
          | none => rfl
          | some r => rw [hc] at h; simp at h
        have hrest := ih.mp h0
        simp only [seekerIds, List.map_cons, List.mem_cons] at hrest ⊢
        intro hor
        rcases hor with he | hm
        · exact hs he.symm
        · exact hrest hm
      · intro h
        simp only [seekerIds, List.map_cons, List.mem_cons, not_or] at h
        rw [ih.mpr h.2]
        rfl

theorem clearBorrowed_some (sid : Nat) (l l' : List BorrowableSeeker)
    (h : clearBorrowed sid l = some l') : BorrowClearedAt sid l l' := by
  induction l generalizing l' with
  | nil => simp [clearBorrowed] at h
  | cons s rest ih =>
    by_cases hs : s.id = sid
    · rw [clearBorrowed, if_pos hs] at h
      cases h
      refine ⟨rfl, 0, ?_, ?_, ?_⟩
      · simp [seekerIds, hs]
      · omega
      · rfl
    · rw [clearBorrowed, if_neg hs] at h
      cases hr : clearBorrowed sid rest with
      | none => rw [hr] at h; simp at h
      | some r' =>
        rw [hr] at h
        have h' : l' = s :: r' := by
          have := h.symm
          simpa using this
        subst h'
        obtain ⟨hid, i, h1, h2, h3⟩ := ih r' hr
        refine ⟨?_, i + 1, ?_, ?_, ?_⟩
        · simp only [seekerIds, List.map_cons] at hid ⊢
          rw [hid]
        · simp only [seekerIds, List.map_cons, List.getElem?_cons_succ]
          exact h1
        · intro j hj
          cases j with
          | zero =>
            simp only [seekerIds, List.map_cons, List.getElem?_cons_zero]
            exact fun he => hs (by injection he)
          | succ j2 =>
            have := h2 j2 (by omega)
            simpa only [seekerIds, List.map_cons, List.getElem?_cons_succ]
              using this
        · simp only [borrowFlags, List.map_cons, List.set_cons_succ]
          simp only [borrowFlags] at h3
          rw [h3]

theorem borrowFlags_map_closed (l : List BorrowableSeeker) :
    borrowFlags (l.map fun s => { s with closed := true }) = borrowFlags l := by
  simp [borrowFlags]

theorem seekerIds_map_closed (l : List BorrowableSeeker) :
    seekerIds (l.map fun s => { s with closed := true }) = seekerIds l := by
  simp [seekerIds]

theorem borrowClearedAt_map_closed (sid : Nat)
    (l l' : List BorrowableSeeker) (h : BorrowClearedAt sid l l') :
    BorrowClearedAt sid l (l'.map fun s => { s with closed := true }) := by
  obtain ⟨hid, i, h1, h2, h3⟩ := h
  exact ⟨by rw [seekerIds_map_closed, hid], i, h1, h2,
    by rw [borrowFlags_map_closed, h3]⟩

/-- The behaviour of `returnSeekerWithLock` split along where the returned
seeker lives: no match leaves the rotation untouched and reports `false`;
an active match clears exactly that slot and does not touch `inactive`;
an inactive match clears exactly that slot and does not touch `active`. -/
theorem returnSeekerWithLock_spec (rs : RotatableSeekers) (sid : Nat) :
    (sid ∉ seekerIds rs.active.seekers → sid ∉ seekerIds rs.inactive.seekers →
      returnSeekerWithLock rs sid = (false, rs)) ∧
    (sid ∈ seekerIds rs.active.seekers →
      (returnSeekerWithLock rs sid).1 = true ∧
      (returnSeekerWithLock rs sid).2.inactive = rs.inactive ∧
      BorrowClearedAt sid rs.active.seekers
        (returnSeekerWithLock rs sid).2.active.seekers) ∧
    (sid ∉ seekerIds rs.active.seekers → sid ∈ seekerIds rs.inactive.seekers →
      (returnSeekerWithLock rs sid).1 = true ∧
      (returnSeekerWithLock rs sid).2.active = rs.active ∧
      BorrowClearedAt sid rs.inactive.seekers
        (returnSeekerWithLock rs sid).2.inactive.seekers) := by
  refine ⟨?_, ?_, ?_⟩
  · intro ha hi
    unfold returnSeekerWithLock
    rw [(clearBorrowed_eq_none sid rs.active.seekers).mpr ha,
      (clearBorrowed_eq_none sid rs.inactive.seekers).mpr hi]
  · intro ha
    unfold returnSeekerWithLock
    cases hc : clearBorrowed sid rs.active.seekers with
    | none => exact absurd ((clearBorrowed_eq_none sid _).mp hc) (by simpa using ha)
    | some act' =>
      exact ⟨rfl, rfl, clearBorrowed_some sid _ _ hc⟩
  · intro ha hi
    unfold returnSeekerWithLock
    rw [(clearBorrowed_eq_none sid rs.active.seekers).mpr ha]
    cases hc : clearBorrowed sid rs.inactive.seekers with
    | none => exact absurd ((clearBorrowed_eq_none sid _).mp hc) (by simpa using hi)
    | some inact' =>
      dsimp only
      by_cases hb : inact'.any (·.isBorrowed)
      · rw [if_pos hb]
        exact ⟨rfl, rfl, clearBorrowed_some sid _ _ hc⟩
      · rw [if_neg hb]
        exact ⟨rfl, rfl,
          borrowClearedAt_map_closed sid _ _ (clearBorrowed_some sid _ _ hc)⟩

theorem find_update_shard (shards : List SeekersByTime) (shard : Nat)
    (f : List (Int × RotatableSeekers) → List (Int × RotatableSeekers))
    (bt0 : SeekersByTime)
    (h : shards.find? (fun bt => bt.shard = shard) = some bt0) :
    ((shards.map fun bt =>
        if bt.shard = shard then { bt with seekers := f bt.seekers }
        else bt).find? fun bt => bt.shard = shard) =
      some { bt0 with seekers := f bt0.seekers } := by
  induction shards with
  | nil => simp at h
  | cons bt rest ih =>
    by_cases hb : bt.shard = shard
    · rw [List.find?_cons_of_pos _ (by simpa using hb)] at h
      cases h
      simp only [List.map_cons, if_pos hb]
      rw [List.find?_cons_of_pos _ (by simpa using hb)]
    · rw [List.find?_cons_of_neg _ (by simpa using hb)] at h
      simp only [List.map_cons, if_neg hb]
      rw [List.find?_cons_of_neg _ (by simpa using hb)]
      exact ih h

theorem returnSeeker_eval (m : SeekerManager) (shard : Nat) (start : Int)
    (sid : Nat) (rs : RotatableSeekers)
    (hrs : lookupRS (m.shardSeekers shard) start = some rs) :
    m.returnSeeker shard start sid =
      (if (returnSeekerWithLock rs sid).1 then
        (none, { m with shards := m.shards.map (fun bt =>
          if bt.shard = shard then
            { bt with seekers := setRS bt.seekers start (returnSeekerWithLock rs sid).2 }
          else bt) })
      else (some .returnedUnmanagedSeeker, m)) := by
  unfold SeekerManager.returnSeeker
  dsimp only
  rw [hrs]
  dsimp only
  by_cases h1 : (returnSeekerWithLock rs sid).1
  · rw [if_pos h1, if_neg (by simpa using h1)]
  · rw [if_neg h1, if_pos (by simpa using h1)]

/-- Claim C10: `Return` distinguishes the two misuse errors — a missing
seekers entry for `(shard, start)` yields `SeekersDontExist`, an entry
whose active and inactive sets both lack the returned seeker yields
`ReturnedUnmanagedSeeker` — and both error cases leave the whole manager
(in particular every borrowed flag) unchanged; a matching return reports
no error and clears `isBorrowed` on exactly the slot the seeker occupies
(active first, the other rotation group untouched). -/
theorem c10_return_seeker_spec (m : SeekerManager) (shard : Nat)
    (start : Int) (sid : Nat) :
    (lookupRS (m.shardSeekers shard) start = none →
      m.returnSeeker shard start sid = (some .seekersDontExist, m)) ∧
    (∀ rs, lookupRS (m.shardSeekers shard) start = some rs →
      sid ∉ seekerIds rs.active.seekers →
      sid ∉ seekerIds rs.inactive.seekers →
      m.returnSeeker shard start sid = (some .returnedUnmanagedSeeker, m)) ∧
    (∀ rs, lookupRS (m.shardSeekers shard) start = some rs →
      sid ∈ seekerIds rs.active.seekers →
      (m.returnSeeker shard start sid).1 = none ∧
      ∃ rs', lookupRS
          ((m.returnSeeker shard start sid).2.shardSeekers shard) start =
            some rs' ∧
        rs'.inactive = rs.inactive ∧
        BorrowClearedAt sid rs.active.seekers rs'.active.seekers) ∧
    (∀ rs, lookupRS (m.shardSeekers shard) start = some rs →
      sid ∉ seekerIds rs.active.seekers →
      sid ∈ seekerIds rs.inactive.seekers →
      (m.returnSeeker shard start sid).1 = none ∧
      ∃ rs', lookupRS
          ((m.returnSeeker shard start sid).2.shardSeekers shard) start =
            some rs' ∧
        rs'.active = rs.active ∧
        BorrowClearedAt sid rs.inactive.seekers rs'.inactive.seekers) := by
  have hupd : ∀ rs', (lookupRS (m.shardSeekers shard) start).isSome →
      lookupRS (SeekerManager.shardSeekers
        { m with shards := m.shards.map (fun bt =>
            if bt.shard = shard then
              { bt with seekers := setRS bt.seekers start rs' }
            else bt) } shard) start = some rs' := by
    intro rs' hsome
    cases hf : m.shards.find? (fun bt => bt.shard = shard) with
    | none =>
      exfalso
      unfold SeekerManager.shardSeekers at hsome
      rw [hf] at hsome
      simp [lookupRS] at hsome
    | some bt0 =>
      unfold SeekerManager.shardSeekers
      rw [find_update_shard m.shards shard (fun sk => setRS sk start rs') bt0 hf]
      apply lookupRS_setRS
      unfold SeekerManager.shardSeekers at hsome
      rw [hf] at hsome
      exact hsome
  refine ⟨?_, ?_, ?_, ?_⟩
  · intro hnone
    unfold SeekerManager.returnSeeker
    dsimp only
    rw [hnone]
  · intro rs hrs ha hi
    rw [returnSeeker_eval m shard start sid rs hrs]
    rw [(returnSeekerWithLock_spec rs sid).1 ha hi]
    rfl
  · intro rs hrs ha
    obtain ⟨h1, h2, h3⟩ := (returnSeekerWithLock_spec rs sid).2.1 ha
    rw [returnSeeker_eval m shard start sid rs hrs, if_pos (by simp [h1])]
    exact ⟨rfl, (returnSeekerWithLock rs sid).2,
      hupd _ (by simp [hrs]), h2, h3⟩
  · intro rs hrs ha hi
    obtain ⟨h1, h2, h3⟩ := (returnSeekerWithLock_spec rs sid).2.2 ha hi
    rw [returnSeeker_eval m shard start sid rs hrs, if_pos (by simp [h1])]
    exact ⟨rfl, (returnSeekerWithLock rs sid).2,
      hupd _ (by simp [hrs]), h2, h3⟩

/-- Witness: returning seeker 5 succeeds, and returning the unknown
seeker 9 fails with `ReturnedUnmanagedSeeker` leaving the manager
unchanged. -/
theorem c10_return_seeker_witness :
    (c10Manager.returnSeeker 0 0 5).1 = none ∧
    c10Manager.returnSeeker 0 0 9 =
      (some .returnedUnmanagedSeeker, c10Manager) :=
  ⟨((c10_return_seeker_spec c10Manager 0 0 5).2.2.1 c10Entry
      (by simp [c10Manager, c10Entry, SeekerManager.shardSeekers, lookupRS])
      (by simp [c10Entry, seekerIds])).1,
    (c10_return_seeker_spec c10Manager 0 0 9).2.1 c10Entry
      (by simp [c10Manager, c10Entry, SeekerManager.shardSeekers, lookupRS])
      (by simp [c10Entry, seekerIds])
      (by simp [c10Entry, emptySeekersAndBloom, seekerIds])⟩

/-! ## Claim C7: Close refuses while borrowed; drain closes everything -/

/-- Claim C7: when the manager is open, `Close` returns
`CantCloseWhileBorrowed` and leaves the manager unchanged (hence still
open, still holding its seekers) whenever any active or inactive seeker
is borrowed; when no seeker is borrowed, `Close` succeeds and the exiting
open/close loop closes every seeker the manager held and releases them
all, so after `Close` no seeker remains open iff no borrow was
outstanding at close time. -/
theorem c7_close_borrow_invariant (m : SeekerManager)
    (hopen : m.status = .opened) :
    (m.anyBorrowed = true →
      m.closeAndDrain = (some .cantCloseWhileBorrowed, [], m)) ∧
    (m.anyBorrowed = false →
      m.closeAndDrain = (none,
        m.heldSeekers.map (fun s => { s with closed := true }),
        { m with status := .closed, shards := [] })) := by
  constructor
  · intro hb
    unfold SeekerManager.closeAndDrain SeekerManager.close
    rw [if_neg (by rw [hopen]; intro h; cases h)]
    rw [if_pos hb]
  · intro hb
    unfold SeekerManager.closeAndDrain SeekerManager.close
    rw [if_neg (by rw [hopen]; intro h; cases h)]
    rw [if_neg (by rw [hb]; intro h; cases h)]
    rfl

/-- Witness: the borrow-free manager closes (all held seekers closed,
none retained); the manager with a borrowed seeker refuses to close and
is left untouched. -/
theorem c7_close_borrow_invariant_witness :
    c7Manager.closeAndDrain = (none,
      [{ id := 3, isBorrowed := false, closed := true }],
      { c7Manager with status := .closed, shards := [] }) ∧
    c7ManagerBorrowed.closeAndDrain =
      (some .cantCloseWhileBorrowed, [], c7ManagerBorrowed) :=
  ⟨(c7_close_borrow_invariant c7Manager rfl).2 rfl,
    (c7_close_borrow_invariant c7ManagerBorrowed rfl).1 rfl⟩

/-! ## Claim C8: index query traversal -/

theorem takeUntilNonExhaustive_sublist (l : List IdxBlock) :
    (takeUntilNonExhaustive l).Sublist l := by
  induction l with
  | nil => simp [takeUntilNonExhaustive]
  | cons blk rest ih =>
    rw [takeUntilNonExhaustive]
    by_cases hb : blk.exhaustive
    · rw [if_pos hb]
      exact ih.cons₂ blk
    · rw [if_neg hb]
      exact (List.nil_sublist rest).cons₂ blk

theorem nsIndexQuery_visited (blockSize qs qe : Int)
    (blocks : List IdxBlock) :
    (nsIndexQuery blockSize qs qe blocks).1 =
      (takeUntilNonExhaustive
        (intersectingStarts blockSize qs qe blocks)).map (·.start) := by
  induction blocks with
  | nil => rfl
  | cons blk rest ih =>
    rw [intersectingStarts] at ih
    rw [nsIndexQuery, intersectingStarts]
    by_cases hi : blockIntersects blockSize qs qe blk
    · rw [if_pos hi, List.filter_cons_of_pos (by simpa using hi)]
      by_cases hb : blk.exhaustive
      · rw [if_pos hb]
        rw [takeUntilNonExhaustive, if_pos hb]
        simp only [List.map_cons]
        rw [← ih]
      · rw [if_neg hb]
        rw [takeUntilNonExhaustive, if_neg hb]
        rfl
    · rw [if_neg hi, List.filter_cons_of_neg (by simpa using hi)]
      rw [ih]

theorem nsIndexQuery_exhaustive (blockSize qs qe : Int)
    (blocks : List IdxBlock) :
    ((nsIndexQuery blockSize qs qe blocks).2 = true ↔
      ∀ blk ∈ takeUntilNonExhaustive
        (intersectingStarts blockSize qs qe blocks),
        blk.exhaustive = true) := by
  induction blocks with
  | nil => simp [nsIndexQuery, intersectingStarts, takeUntilNonExhaustive]
  | cons blk rest ih =>
    rw [nsIndexQuery, intersectingStarts]
    by_cases hi : blockIntersects blockSize qs qe blk
    · rw [if_pos hi, List.filter_cons_of_pos (by simpa using hi)]
      by_cases hb : blk.exhaustive
      · rw [if_pos hb]
        rw [takeUntilNonExhaustive, if_pos hb]
        constructor
        · intro h blk2 hm
          rcases List.mem_cons.mp hm with rfl | hm2
          · exact hb
          · exact (ih.mp h) blk2 hm2
        · intro h
          exact ih.mpr fun blk2 hm2 => h blk2 (List.mem_cons_of_mem _ hm2)
      · rw [if_neg hb]
        rw [takeUntilNonExhaustive, if_neg hb]
        constructor
        · intro h
          cases h
        · intro h
          exact absurd (h blk (List.mem_singleton_self blk)) hb
    · rw [if_neg hi, List.filter_cons_of_neg (by simpa using hi)]
      rw [← intersectingStarts]
      rw [intersectingStarts] at ih
      exact ih

/-- Claim C8 (spec-modelled): the namespace index `Query` visits exactly
the blocks whose `[start, start+blockSize)` intersects
`[startInclusive, endExclusive)`, in the traversal (descending
blockStart) order, stopping at — and including — the first block that
reports `exhaustive = false` without querying any later candidate; the
returned exhaustive flag is `true` iff every visited block reported
`exhaustive = true`. -/
theorem c8_query_traversal (blockSize qs qe : Int)
    (blocks : List IdxBlock)
    (hdesc : blocks.Pairwise fun a b => b.start < a.start) :
    (nsIndexQuery blockSize qs qe blocks).1 =
      (takeUntilNonExhaustive
        (intersectingStarts blockSize qs qe blocks)).map (·.start) ∧
    ((nsIndexQuery blockSize qs qe blocks).2 = true ↔
      ∀ blk ∈ takeUntilNonExhaustive
        (intersectingStarts blockSize qs qe blocks),
        blk.exhaustive = true) ∧
    (nsIndexQuery blockSize qs qe blocks).1.Pairwise (fun a b => b < a) := by
  refine ⟨nsIndexQuery_visited blockSize qs qe blocks,
    nsIndexQuery_exhaustive blockSize qs qe blocks, ?_⟩
  rw [nsIndexQuery_visited blockSize qs qe blocks]
  rw [List.pairwise_map]
  exact List.Pairwise.sublist ((takeUntilNonExhaustive_sublist _).trans
    (List.filter_sublist blocks)) hdesc

/-- Witness for claim C8: three descending hourly blocks over
`[0, 3600)`; the middle one is non-exhaustive, so the earliest is not
visited and the overall flag is false. -/
theorem c8_query_traversal_witness :
    (nsIndexQuery 1200 0 3600
      [⟨2400, true⟩, ⟨1200, false⟩, ⟨0, true⟩]).1 = [2400, 1200] ∧
    (nsIndexQuery 1200 0 3600
      [⟨2400, true⟩, ⟨1200, false⟩, ⟨0, true⟩]).2 = false :=
  have h := c8_query_traversal 1200 0 3600
    [⟨2400, true⟩, ⟨1200, false⟩, ⟨0, true⟩] (by decide)
  ⟨by rw [h.1]; rfl, by
    cases he : (nsIndexQuery 1200 0 3600
      [⟨2400, true⟩, ⟨1200, false⟩, ⟨0, true⟩]).2 with
    | false => rfl
    | true =>
      exact absurd ((h.2.1.mp he) ⟨1200, false⟩ (by decide)) (by decide)⟩

/-- Claim C9 is false for a bucket holding a single empty encoder and a
single bootstrapped block (the state every freshly bootstrapped bucket is
in): the claim's condition — a mix of bootstrapped blocks and at least
one encoder — says it merges, but `needsMerge` is false
(`hasJustSingleBootstrappedBlock` holds) and `merge` is a no-op. -/
theorem c9_claim_counterexample :
    claimC9NeedsMerge c9Bucket ∧ ¬ c9Bucket.needsMerge ∧
      c9Bucket.merge concatMergeFn = (.ok 0, c9Bucket) := by
  refine ⟨by decide, by decide, ?_⟩
  rw [BufferBucket.merge, if_pos (by decide)]

theorem merge_ok_single_encoder (b : BufferBucket) (mergeFn : MergeFn)
    (n : Nat) (b' : BufferBucket) (hn : b.needsMerge)
    (h : b.merge mergeFn = (.ok n, b')) : b'.hasJustSingleEncoder := by
  rw [BufferBucket.merge, if_neg (by simpa using hn)] at h
  cases hk : mergeFn b.mergeReaders with
  | error e =>
    rw [hk] at h
    exact absurd (congrArg Prod.fst h) (by intro hfst; cases hfst)
  | ok merged =>
    rw [hk] at h
    cases h
    exact ⟨rfl, rfl⟩

/-- Amended claim C9: a bucket merges iff it holds more than one encoder,
or more than one bootstrapped block, or a single bootstrapped block
together with a single non-empty encoder, or neither encoders nor
bootstrapped blocks; in particular a single (possibly empty) encoder
alone, a single bootstrapped block alone, and a single empty encoder
alongside a single bootstrapped block do not merge.  After a successful
merge the bucket holds exactly one encoder and no bootstrapped blocks,
so the `IncompleteMerge` post-condition check of `mergeToStream` never
fires. -/
theorem c9_needs_merge_spec (b : BufferBucket) (mergeFn : MergeFn) :
    (b.needsMerge ↔
      2 ≤ b.encoders.length ∨ 2 ≤ b.bootstrapped.length ∨
      (b.encoders.length = 0 ∧ b.bootstrapped.length = 0) ∨
      (b.encoders.length = 1 ∧ b.bootstrapped.length = 1 ∧
        (b.encoders.headD default).data ≠ [])) ∧
    (∀ merged, b.needsMerge → mergeFn b.mergeReaders = .ok merged →
      (b.merge mergeFn).2.encoders.length = 1 ∧
      (b.merge mergeFn).2.bootstrapped = []) ∧
    (b.mergeToStream mergeFn).1 ≠ .error .incompleteMerge := by
  refine ⟨?_, ?_, ?_⟩
  · obtain ⟨st, encs, boots, ver, wt⟩ := b
    simp only [BufferBucket.needsMerge, BufferBucket.hasJustSingleEncoder,
      BufferBucket.hasJustSingleBootstrappedBlock]
    rcases encs with _ | ⟨e, _ | ⟨e2, es⟩⟩ <;>
      rcases boots with _ | ⟨k, _ | ⟨k2, ks⟩⟩ <;>
      simp [List.length_eq_zero]
  · intro merged hn hok
    rw [BufferBucket.merge, if_neg (by simpa using hn), hok]
    exact ⟨rfl, rfl⟩
  · unfold BufferBucket.mergeToStream
    by_cases h1 : b.hasJustSingleEncoder
    · rw [if_pos h1]
      dsimp only
      split <;> simp
    · rw [if_neg h1]
      by_cases h2 : b.hasJustSingleBootstrappedBlock
      · rw [if_pos h2]
        dsimp only
        intro hcontra
        exact Except.noConfusion hcontra
      · rw [if_neg h2]
        have hn : b.needsMerge := fun hor => hor.elim h1 h2
        rcases hm : b.merge mergeFn with ⟨res, b2⟩
        rcases res with e | n
        · dsimp only
          intro hcontra
          injection hcontra with h3
          cases h3
        · dsimp only
          rw [if_neg (by
            simpa using merge_ok_single_encoder b mergeFn n b2 hn hm)]
          split <;> simp

/-- Claim C3 is false on the Snapshot/WarmFlush path: when the merge
inside `mergeToStream` fails, the error is propagated but the bucket's
encoders (and bootstrapped blocks) are closed and cleared
(`resetEncoders`/`resetBootstrapped` run on the error path,
buffer.go:1330-1335), not left unchanged for a retry. -/
theorem c3_claim_counterexample :
    (c3Bucket.mergeToStream failMergeFn).1 = .error (.enc .encodeError) ∧
    (c3Bucket.mergeToStream failMergeFn).2.encoders = [] ∧
    c3Bucket.encoders ≠ [] := by
  refine ⟨?_, ?_, by decide⟩ <;>
    rw [BufferBucket.mergeToStream, if_neg (by decide), if_neg (by decide)] <;>
    rfl

/-- Amended claim C3: a failed merge always propagates its error and
never changes any bucket's version.  On the Tick path (`BufferBucket.
merge`) the bucket is additionally left fully unchanged, so the retry on
the next tick operates on the same data; but on the Snapshot/WarmFlush
path (`BufferBucket.mergeToStream`) a merge failure closes and clears the
bucket's encoders and bootstrapped blocks. -/
theorem c3_merge_failure_semantics (bk : BufferBucket) (mergeFn : MergeFn)
    (e : EncodeError) (hn : bk.needsMerge)
    (hfail : mergeFn bk.mergeReaders = .error e) :
    bk.merge mergeFn = (.error e, bk) ∧
    (bk.mergeToStream mergeFn).1 = .error (.enc e) ∧
    (bk.mergeToStream mergeFn).2.version = bk.version ∧
    (bk.mergeToStream mergeFn).2.writeType = bk.writeType ∧
    (bk.mergeToStream mergeFn).2.encoders = [] ∧
    (bk.mergeToStream mergeFn).2.bootstrapped = [] := by
  have hmerge : bk.merge mergeFn = (.error e, bk) := by
    rw [BufferBucket.merge, if_neg (by simpa using hn), hfail]
  have h1 : ¬ bk.hasJustSingleEncoder := fun h => hn (Or.inl h)
  have h2 : ¬ bk.hasJustSingleBootstrappedBlock := fun h => hn (Or.inr h)
  have hmts : bk.mergeToStream mergeFn =
      (.error (.enc e), { bk with encoders := [], bootstrapped := [] }) := by
    rw [BufferBucket.mergeToStream, if_neg h1, if_neg h2, hmerge]
  rw [hmerge, hmts]
  exact ⟨rfl, rfl, rfl, rfl, rfl, rfl⟩

/-- Witness: the two-encoder warm bucket with the always-failing encode
step. -/
theorem c3_merge_failure_semantics_witness :
    c3Bucket.merge failMergeFn = (.error .encodeError, c3Bucket) ∧
    (c3Bucket.mergeToStream failMergeFn).2.version = c3Bucket.version :=
  have h := c3_merge_failure_semantics c3Bucket failMergeFn .encodeError
    (by decide) rfl
  ⟨h.1, h.2.2.1⟩

/-! ## Claim C4: WarmFlush -/

theorem lookupBV_setBVMap_ne (m : List (Int × BufferBucketVersions))
    (t u : Int) (bv : BufferBucketVersions) (h : t ≠ u) :
    lookupBV (setBVMap m u bv) t = lookupBV m t := by
  induction m with
  | nil => rfl
  | cons p rest ih =>
    by_cases hp : p.1 = u
    · simp only [setBVMap, List.map_cons, if_pos hp, lookupBV]
      rw [List.find?_cons_of_neg _ (by simpa using h.symm),
        List.find?_cons_of_neg _ (by simp [hp]; exact fun hc => h (hc ▸ hp ▸ rfl))]
      exact ih
    · simp only [setBVMap, List.map_cons, if_neg hp, lookupBV]
      by_cases hpt : p.1 = t
      · rw [List.find?_cons_of_pos _ (by simpa using hpt),
          List.find?_cons_of_pos _ (by simpa using hpt)]
      · rw [List.find?_cons_of_neg _ (by simpa using hpt),
          List.find?_cons_of_neg _ (by simpa using hpt)]
        exact ih

theorem lookupBV_setBVMap_eq (m : List (Int × BufferBucketVersions))
    (u : Int) (bv : BufferBucketVersions)
    (h : (lookupBV m u).isSome) :
    lookupBV (setBVMap m u bv) u = some bv := by
  induction m with
  | nil => simp [lookupBV] at h
  | cons p rest ih =>
    by_cases hp : p.1 = u
    · simp [lookupBV, setBVMap, List.find?_cons, hp]
    · simp only [lookupBV, setBVMap, List.map_cons, if_neg hp] at *
      rw [List.find?_cons_of_neg _ (by simpa using hp)] at h ⊢
      exact ih h

theorem setBVMap_setBVMap (m : List (Int × BufferBucketVersions)) (t : Int)
    (x y : BufferBucketVersions) :
    setBVMap (setBVMap m t x) t y = setBVMap m t y := by
  induction m with
  | nil => rfl
  | cons p rest ih =>
    by_cases hp : p.1 = t
    · simp only [setBVMap, List.map_cons, if_pos hp, if_pos rfl]
      simpa [setBVMap] using ih
    · simp only [setBVMap, List.map_cons, if_neg hp]
      simpa [setBVMap] using ih

/-- The state `WarmFlush` leaves behind in each outcome: the result is
always the input buffer with the blockStart's bucket versions replaced by
the warm-merged ones (promoted to version 1 on success). -/
theorem warmFlush_shape (b : DBuffer) (mergeFn : MergeFn)
    (persistOk : Bool) (t : Int) :
    (b.bucketVersionsAt t = none ∧
      b.warmFlush mergeFn persistOk t = ((.blockDoesNotExist, none), b)) ∨
    (∃ bv, b.bucketVersionsAt t = some bv ∧
      ((∃ e, b.warmFlush mergeFn persistOk t =
        ((.err, some (.mergeErr e)), b.setAtBV t (warmMergedBV bv mergeFn))) ∨
      b.warmFlush mergeFn persistOk t =
        ((.blockDoesNotExist, none), b.setAtBV t (warmMergedBV bv mergeFn)) ∨
      (persistOk = false ∧ b.warmFlush mergeFn persistOk t =
        ((.err, some .persistErr), b.setAtBV t (warmMergedBV bv mergeFn))) ∨
      (persistOk = true ∧ b.warmFlush mergeFn persistOk t =
        ((.flushedToDisk, none),
          b.setAtBV t ((warmMergedBV bv mergeFn).promoteWritable .warm 1))))) := by
  cases hbv : b.bucketVersionsAt t with
  | none =>
    left
    refine ⟨rfl, ?_⟩
    rw [DBuffer.warmFlush, hbv]
  | some bv =>
    right
    refine ⟨bv, rfl, ?_⟩
    rw [DBuffer.warmFlush, hbv]
    dsimp only
    show _ ∨ _
    rw [show ({ filterWriteType := true, writeType := .warm } :
      StreamsOptions) = warmStreamOpts from rfl]
    cases hm : (bv.mergeToStreams mergeFn warmStreamOpts).1 with
    | error e => exact Or.inl ⟨e, rfl⟩
    | ok streams =>
      rcases streams with _ | ⟨s, _ | ⟨s2, ss⟩⟩
      · dsimp only
        cases hk : mergeFn [] with
        | error e =>
          dsimp only
          exact Or.inl ⟨.enc e, rfl⟩
        | ok merged =>
          dsimp only
          rcases merged with _ | ⟨d, ds⟩
          · exact Or.inr (Or.inl rfl)
          · cases hp : persistOk
            · refine Or.inr (Or.inr (Or.inl ⟨rfl, ?_⟩))
              rw [if_neg (by simp)]
              dsimp only
              rw [if_neg (by simp), if_pos (by simp)]
              rw [DBuffer.setAtBV, warmMergedBV]
            · refine Or.inr (Or.inr (Or.inr ⟨rfl, ?_⟩))
              rw [if_neg (by simp)]
              dsimp only
              rw [if_neg (by simp), if_neg (by simp)]
              rw [DBuffer.setAtBV, warmMergedBV, setBVMap_setBVMap]
      · dsimp only
        by_cases hs : s.length = 0
        · rw [if_pos hs]
          exact Or.inr (Or.inl rfl)
        · rw [if_neg hs]
          cases hp : persistOk
          · rw [if_pos (by simp)]
            exact Or.inr (Or.inr (Or.inl ⟨rfl, by
              rw [DBuffer.setAtBV, warmMergedBV]⟩))
          · rw [if_neg (by simp)]
            exact Or.inr (Or.inr (Or.inr ⟨rfl, by
              rw [DBuffer.setAtBV, warmMergedBV, setBVMap_setBVMap]⟩))
      · dsimp only
        cases hk : mergeFn (s :: s2 :: ss) with
        | error e =>
          dsimp only
          exact Or.inl ⟨.enc e, rfl⟩
        | ok merged =>
          dsimp only
          rcases merged with _ | ⟨d, ds⟩
          · exact Or.inr (Or.inl rfl)
          · cases hp : persistOk
            · refine Or.inr (Or.inr (Or.inl ⟨rfl, ?_⟩))
              rw [if_neg (by simp)]
              dsimp only
              rw [if_neg (by simp), if_pos (by simp)]
              rw [DBuffer.setAtBV, warmMergedBV]
            · refine Or.inr (Or.inr (Or.inr ⟨rfl, ?_⟩))
              rw [if_neg (by simp)]
              dsimp only
              rw [if_neg (by simp), if_neg (by simp)]
              rw [DBuffer.setAtBV, warmMergedBV, setBVMap_setBVMap]

theorem merge_preserves (mergeFn : MergeFn) (bk : BufferBucket) :
    (bk.merge mergeFn).2.version = bk.version ∧
    (bk.merge mergeFn).2.writeType = bk.writeType ∧
    (bk.merge mergeFn).2.start = bk.start := by
  rw [BufferBucket.merge]
  by_cases hn : bk.needsMerge
  · rw [if_neg (by simpa using hn)]
    cases mergeFn bk.mergeReaders <;> exact ⟨rfl, rfl, rfl⟩
  · rw [if_pos (by simpa using hn)]
    exact ⟨rfl, rfl, rfl⟩

theorem mergeToStream_preserves (mergeFn : MergeFn) (bk : BufferBucket) :
    (bk.mergeToStream mergeFn).2.version = bk.version ∧
    (bk.mergeToStream mergeFn).2.writeType = bk.writeType ∧
    (bk.mergeToStream mergeFn).2.start = bk.start := by
  rw [BufferBucket.mergeToStream]
  by_cases h1 : bk.hasJustSingleEncoder
  · rw [if_pos h1]
    dsimp only
    split <;> exact ⟨rfl, rfl, rfl⟩
  · rw [if_neg h1]
    by_cases h2 : bk.hasJustSingleBootstrappedBlock
    · rw [if_pos h2]
      exact ⟨rfl, rfl, rfl⟩
    · rw [if_neg h2]
      have hp := merge_preserves mergeFn bk
      rcases hm : bk.merge mergeFn with ⟨res, b2⟩
      rw [hm] at hp
      rcases res with e | n
      · exact ⟨rfl, rfl, rfl⟩
      · dsimp only
        by_cases hj : b2.hasJustSingleEncoder
        · rw [if_neg (by simpa using hj)]
          split <;> exact hp
        · rw [if_pos (by simpa using hj)]
          exact hp

/-- The pointwise effect of `mergeToStreams` on the bucket list: versions,
write types and starts are preserved, and buckets filtered out by the
write-type filter are untouched. -/
theorem mergeToStreamsList_forall2 (mergeFn : MergeFn)
    (opts : StreamsOptions) (l : List BufferBucket) :
    List.Forall₂ (fun bk bk' =>
      bk'.version = bk.version ∧ bk'.writeType = bk.writeType ∧
      bk'.start = bk.start ∧
      ((opts.filterWriteType = true ∧ ¬ bk.writeType = opts.writeType) →
        bk' = bk))
      l (mergeToStreamsList mergeFn opts l).2 := by
  induction l with
  | nil => constructor
  | cons bk rest ih =>
    rw [mergeToStreamsList]
    by_cases hf : ¬ opts.filterWriteType = true ∨ bk.writeType = opts.writeType
    · rw [if_pos hf]
      have hp := mergeToStream_preserves mergeFn bk
      rcases hms : bk.mergeToStream mergeFn with ⟨r, bk'⟩
      rw [hms] at hp
      have hhead : bk'.version = bk.version ∧ bk'.writeType = bk.writeType ∧
          bk'.start = bk.start ∧
          ((opts.filterWriteType = true ∧ ¬ bk.writeType = opts.writeType) →
            bk' = bk) := by
        refine ⟨hp.1, hp.2.1, hp.2.2, ?_⟩
        intro hcon
        exact absurd hf (by
          push_neg
          exact ⟨hcon.1, hcon.2⟩)
      rcases r with e | _ | _
      · exact .cons hhead (List.forall₂_same.mpr fun bk2 _ =>
          ⟨rfl, rfl, rfl, fun _ => rfl⟩)
      · exact .cons hhead ih
      · exact .cons hhead ih
    · rw [if_neg hf]
      exact .cons ⟨rfl, rfl, rfl, fun _ => rfl⟩ ih

/-- The pointwise effect of promoting the writable bucket of a write
type: when the list holds at most one writable bucket of that type,
exactly that bucket's version becomes `v`, all else is untouched. -/
theorem promoteWritableList_forall2 (wt : WriteType) (v : Nat)
    (l : List BufferBucket)
    (hcount : l.countP (fun bk =>
      decide (bk.version = writableBucketVersion ∧ bk.writeType = wt)) ≤ 1) :
    List.Forall₂ (fun bk bk' =>
      bk'.writeType = bk.writeType ∧ bk'.start = bk.start ∧
      bk'.encoders = bk.encoders ∧ bk'.bootstrapped = bk.bootstrapped ∧
      bk'.version = (if bk.version = writableBucketVersion ∧
        bk.writeType = wt then v else bk.version))
      l (promoteWritableList wt v l) := by
  induction l with
  | nil => constructor
  | cons bk rest ih =>
    rw [promoteWritableList]
    by_cases hb : bk.version = writableBucketVersion ∧ bk.writeType = wt
    · rw [if_pos hb]
      refine .cons ⟨rfl, rfl, rfl, rfl, by rw [if_pos hb]⟩ ?_
      have hrest : rest.countP (fun bk =>
          decide (bk.version = writableBucketVersion ∧
            bk.writeType = wt)) = 0 := by
        rw [List.countP_cons_of_pos _ _ (by simpa using hb)] at hcount
        omega
      refine List.forall₂_same.mpr fun bk2 hm => ⟨rfl, rfl, rfl, rfl, ?_⟩
      rw [if_neg (by
        have := List.countP_eq_zero.mp hrest bk2 hm
        simpa using this)]
    · rw [if_neg hb]
      refine .cons ⟨rfl, rfl, rfl, rfl, by rw [if_neg hb]⟩ ?_
      apply ih
      rw [List.countP_cons] at hcount
      omega

theorem forall2_comp {α β γ : Type} {R : α → β → Prop} {S : β → γ → Prop}
    {T : α → γ → Prop} (h : ∀ a b c, R a b → S b c → T a c) :
    ∀ {l1 : List α} {l2 : List β} {l3 : List γ},
      List.Forall₂ R l1 l2 → List.Forall₂ S l2 l3 →
      List.Forall₂ T l1 l3 := by
  intro l1 l2 l3 h12
  induction h12 generalizing l3 with
  | nil =>
    intro h23
    cases h23
    constructor
  | cons hr _ ih =>
    intro h23
    cases h23 with
    | cons hs hrest2 => exact .cons (h _ _ _ hr hs) (ih hrest2)

theorem countP_writable_of_forall2 (wt : WriteType)
    {l l' : List BufferBucket}
    (h : List.Forall₂ (fun bk bk' => bk'.version = bk.version ∧
      bk'.writeType = bk.writeType) l l') :
    l'.countP (fun bk => decide (bk.version = writableBucketVersion ∧
        bk.writeType = wt)) =
      l.countP (fun bk => decide (bk.version = writableBucketVersion ∧
        bk.writeType = wt)) := by
  induction h with
  | nil => rfl
  | cons hr hrest ih =>
    rw [List.countP_cons, List.countP_cons, ih]
    rcases hr with ⟨h1, h2⟩
    rw [h1, h2]

theorem bucketVersionsAt_some_lookup (b : DBuffer) (t : Int)
    (bv : BufferBucketVersions) (h : b.bucketVersionsAt t = some bv) :
    lookupBV b.bucketsMap t = some bv := by
  unfold DBuffer.bucketVersionsAt at h
  by_cases hf : b.bucketVersionsFound t
  · rwa [if_pos hf] at h
  · rw [if_neg hf] at h
    cases h

theorem bufferBucket_eq_of_fields {a b : BufferBucket}
    (h1 : b.start = a.start) (h2 : b.encoders = a.encoders)
    (h3 : b.bootstrapped = a.bootstrapped) (h4 : b.version = a.version)
    (h5 : b.writeType = a.writeType) : b = a := by
  cases a
  cases b
  simp only at h1 h2 h3 h4 h5
  rw [h1, h2, h3, h4, h5]

/-- Claim C4: `WarmFlush(blockStart, persistFn)` merges only the Warm
buckets at `blockStart` (all other blockStarts and all non-Warm buckets
are untouched); it sets the writable Warm bucket's version to 1 exactly
when `persistFn` succeeds (outcome `FlushedToDisk`, which happens only
with `persistOk`); it returns `BlockDoesNotExist` (with no error) when no
bucket versions exist at `blockStart` or the merged segment is empty, and
`Err` with an error and no version change when merging or `persistFn`
fails. -/
theorem c4_warm_flush_spec (b : DBuffer) (mergeFn : MergeFn)
    (persistOk : Bool) (blockStart : Int) :
    (b.bucketVersionsAt blockStart = none →
      b.warmFlush mergeFn persistOk blockStart =
        ((.blockDoesNotExist, none), b)) ∧
    (∀ t, ¬ t = blockStart →
      lookupBV (b.warmFlush mergeFn persistOk blockStart).2.bucketsMap t =
        lookupBV b.bucketsMap t) ∧
    ((b.warmFlush mergeFn persistOk blockStart).1.1 = .flushedToDisk →
      persistOk = true ∧
        (b.warmFlush mergeFn persistOk blockStart).1.2 = none) ∧
    (persistOk = false →
      ¬ (b.warmFlush mergeFn persistOk blockStart).1.1 = .flushedToDisk) ∧
    ((b.warmFlush mergeFn persistOk blockStart).1.1 = .err →
      ¬ (b.warmFlush mergeFn persistOk blockStart).1.2 = none) ∧
    ((b.warmFlush mergeFn persistOk blockStart).1.1 = .blockDoesNotExist →
      (b.warmFlush mergeFn persistOk blockStart).1.2 = none) ∧
    (∀ bv, b.bucketVersionsAt blockStart = some bv →
      bv.buckets.countP (fun bk => decide (bk.version =
        writableBucketVersion ∧ bk.writeType = .warm)) ≤ 1 →
      ∃ bv', lookupBV (b.warmFlush mergeFn persistOk
          blockStart).2.bucketsMap blockStart = some bv' ∧
        List.Forall₂
          (C4BucketRel (b.warmFlush mergeFn persistOk blockStart).1.1)
          bv.buckets bv'.buckets) := by
  rcases warmFlush_shape b mergeFn persistOk blockStart with
    ⟨hbv, heq⟩ | ⟨bv, hbv, hcase⟩
  · rw [heq]
    refine ⟨fun _ => rfl, fun t ht => rfl, ?_, ?_, ?_, ?_, ?_⟩
    · intro h
      cases h
    · intro _ h
      cases h
    · intro h
      cases h
    · intro _
      rfl
    · intro bv hbv2
      rw [hbv] at hbv2
      cases hbv2
  · have hlk : lookupBV b.bucketsMap blockStart = some bv :=
      bucketVersionsAt_some_lookup b blockStart bv hbv
    have hmerge0 := mergeToStreamsList_forall2 mergeFn warmStreamOpts
      bv.buckets
    have hmergedbv : (warmMergedBV bv mergeFn).buckets =
        (mergeToStreamsList mergeFn warmStreamOpts bv.buckets).2 := rfl
    rcases hcase with ⟨e, heq⟩ | heq | ⟨hp, heq⟩ | ⟨hp, heq⟩
    -- merge error
    · rw [heq]
      refine ⟨?_, ?_, ?_, ?_, ?_, ?_, ?_⟩
      · intro h
        rw [hbv] at h
        cases h
      · intro t ht
        exact lookupBV_setBVMap_ne _ _ _ _ ht
      · intro h
        cases h
      · intro _ h
        cases h
      · intro _ h
        cases h
      · intro h
        cases h
      · intro bv2 hbv2 hcnt
        rw [hbv] at hbv2
        cases hbv2
        refine ⟨warmMergedBV bv mergeFn,
          lookupBV_setBVMap_eq _ _ _ (by simp [hlk]), ?_⟩
        rw [hmergedbv]
        refine List.Forall₂.imp ?_ hmerge0
        intro bk bk' hr
        obtain ⟨h1, h2, h3, h4⟩ := hr
        refine ⟨h2, h3, fun hnw => h4 ⟨rfl, hnw⟩, ?_⟩
        rw [if_neg (fun hx => FlushOutcome.noConfusion hx.1), h1]
    -- block does not exist (empty merged segment)
    · rw [heq]
      refine ⟨?_, ?_, ?_, ?_, ?_, ?_, ?_⟩
      · intro h
        rw [hbv] at h
        cases h
      · intro t ht
        exact lookupBV_setBVMap_ne _ _ _ _ ht
      · intro h
        cases h
      · intro _ h
        cases h
      · intro h
        cases h
      · intro _
        rfl
      · intro bv2 hbv2 hcnt
        rw [hbv] at hbv2
        cases hbv2
        refine ⟨warmMergedBV bv mergeFn,
          lookupBV_setBVMap_eq _ _ _ (by simp [hlk]), ?_⟩
        rw [hmergedbv]
        refine List.Forall₂.imp ?_ hmerge0
        intro bk bk' hr
        obtain ⟨h1, h2, h3, h4⟩ := hr
        refine ⟨h2, h3, fun hnw => h4 ⟨rfl, hnw⟩, ?_⟩
        rw [if_neg (fun hx => FlushOutcome.noConfusion hx.1), h1]
    -- persist failure
    · rw [heq]
      refine ⟨?_, ?_, ?_, ?_, ?_, ?_, ?_⟩
      · intro h
        rw [hbv] at h
        cases h
      · intro t ht
        exact lookupBV_setBVMap_ne _ _ _ _ ht
      · intro h
        cases h
      · intro _ h
        cases h
      · intro _ h
        cases h
      · intro h
        cases h
      · intro bv2 hbv2 hcnt
        rw [hbv] at hbv2
        cases hbv2
        refine ⟨warmMergedBV bv mergeFn,
          lookupBV_setBVMap_eq _ _ _ (by simp [hlk]), ?_⟩
        rw [hmergedbv]
        refine List.Forall₂.imp ?_ hmerge0
        intro bk bk' hr
        obtain ⟨h1, h2, h3, h4⟩ := hr
        refine ⟨h2, h3, fun hnw => h4 ⟨rfl, hnw⟩, ?_⟩
        rw [if_neg (fun hx => FlushOutcome.noConfusion hx.1), h1]
    -- success
    · rw [heq]
      refine ⟨?_, ?_, ?_, ?_, ?_, ?_, ?_⟩
      · intro h
        rw [hbv] at h
        cases h
      · intro t ht
        exact lookupBV_setBVMap_ne _ _ _ _ ht
      · intro _
        exact ⟨hp, rfl⟩
      · intro hpf
        rw [hp] at hpf
        cases hpf
      · intro h
        cases h
      · intro h
        cases h
      · intro bv2 hbv2 hcnt
        rw [hbv] at hbv2
        cases hbv2
        refine ⟨(warmMergedBV bv mergeFn).promoteWritable .warm 1,
          lookupBV_setBVMap_eq _ _ _ (by simp [hlk]), ?_⟩
        have hcnt2 : (warmMergedBV bv mergeFn).buckets.countP
            (fun bk => decide (bk.version = writableBucketVersion ∧
              bk.writeType = .warm)) ≤ 1 := by
          rw [hmergedbv]
          rw [countP_writable_of_forall2 .warm
            (List.Forall₂.imp (fun bk bk' hr => ⟨hr.1, hr.2.1⟩) hmerge0)]
          exact hcnt
        have hprom := promoteWritableList_forall2 .warm 1
          (warmMergedBV bv mergeFn).buckets hcnt2
        have hcomb := forall2_comp
          (R := fun bk bk' =>
            bk'.version = bk.version ∧ bk'.writeType = bk.writeType ∧
            bk'.start = bk.start ∧
            ((warmStreamOpts.filterWriteType = true ∧
              ¬ bk.writeType = warmStreamOpts.writeType) → bk' = bk))
          (S := fun bk bk' =>
            bk'.writeType = bk.writeType ∧ bk'.start = bk.start ∧
            bk'.encoders = bk.encoders ∧
            bk'.bootstrapped = bk.bootstrapped ∧
            bk'.version = (if bk.version = writableBucketVersion ∧
              bk.writeType = .warm then 1 else bk.version))
          (T := C4BucketRel .flushedToDisk)
          ?_ (by rw [← hmergedbv] at hmerge0; exact hmerge0) hprom
        · exact hcomb
        · intro a bk c hR hS
          obtain ⟨hv, hw, hst, hfil⟩ := hR
          obtain ⟨hw2, hst2, henc, hboot, hver⟩ := hS
          refine ⟨hw2.trans hw, hst2.trans hst, ?_, ?_⟩
          · intro hnw
            have hba : bk = a := hfil ⟨rfl, hnw⟩
            subst hba
            refine bufferBucket_eq_of_fields (hst2) henc hboot ?_ hw2
            rw [hver, if_neg (fun hx => hnw hx.2)]
          · by_cases hcond : a.version = writableBucketVersion ∧
              a.writeType = .warm
            · rw [if_pos ⟨rfl, hcond⟩, hver,
                if_pos (by rw [hv, hw]; exact hcond)]
            · rw [if_neg (fun hx => hcond hx.2), hver,
                if_neg (by rw [hv, hw]; exact hcond), hv]

/-- Witness: flushing the concrete buffer with a succeeding persist
function reports no error alongside `FlushedToDisk`, and the bucket list
at blockStart 0 satisfies the C4 relation (the writable warm bucket's
version became 1). -/
theorem c4_warm_flush_spec_witness :
    (c4Buffer.warmFlush concatMergeFn true 0).1.2 = none ∧
    ∃ bv', lookupBV
        (c4Buffer.warmFlush concatMergeFn true 0).2.bucketsMap 0 =
          some bv' ∧
      List.Forall₂
        (C4BucketRel (c4Buffer.warmFlush concatMergeFn true 0).1.1)
        c4BV.buckets bv'.buckets :=
  ⟨((c4_warm_flush_spec c4Buffer concatMergeFn true 0).2.2.1
      (by decide)).2,
    (c4_warm_flush_spec c4Buffer concatMergeFn true 0).2.2.2.2.2.2 c4BV
      (by decide) (by decide)⟩

/-- Claim C5 is false when no cold bucket exists: on the empty buffer the
fetch result is empty, and `FetchBlocksForColdFlush` returns `(nil, nil)`
— no streams and *no error* (the data is taken to have fallen out of
retention, buffer.go:630-636) — where the claim demands an error. -/
theorem c5_claim_counterexample :
    cexBuffer.bucketVersionsAt 0 = none ∧
    cexBuffer.fetchBlocksForColdFlush 0 3 = (.ok [], cexBuffer) :=
  ⟨rfl, rfl⟩

theorem fetchBlocks_singleton (b : DBuffer) (start : Int)
    (opts : StreamsOptions) (r : Int × List (List Datapoint))
    (rs : List (Int × List (List Datapoint)))
    (h : b.fetchBlocks [start] opts = r :: rs) :
    rs = [] := by
  unfold DBuffer.fetchBlocks at h
  rw [List.filterMap_cons] at h
  cases hf : (match b.bucketVersionsAt start with
      | none => none
      | some bv =>
        let streams := bv.streams opts
        if streams.isEmpty then none
        else some (start, streams) :
      Option (Int × List (List Datapoint))) with
  | none =>
    rw [hf] at h
    simp at h
  | some x =>
    rw [hf] at h
    simp only [List.filterMap_nil] at h
    cases h
    rfl

/-- Amended claim C5: when the cold-filtered fetch at `start` yields no
streams (in particular whenever no cold bucket with data exists there),
`FetchBlocksForColdFlush` returns nil streams and *nil error*, leaving
the buffer untouched; when cold streams exist, it returns them and
promotes the writable Cold bucket at `start` to the given version,
erroring (`writable bucket does not exist`) only when the cold streams
came solely from non-writable cold buckets. -/
theorem c5_fetch_blocks_for_cold_flush (b : DBuffer) (start : Int)
    (version : Nat) :
    (b.fetchBlocks [start] coldStreamOpts = [] →
      b.fetchBlocksForColdFlush start version = (.ok [], b)) ∧
    (∀ r rs, b.fetchBlocks [start] coldStreamOpts = r :: rs →
      ∀ bv, lookupBV b.bucketsMap start = some bv →
        ((bv.writableBucket .cold).isSome →
          b.fetchBlocksForColdFlush start version =
            (.ok r.2, b.setAtBV start (bv.promoteWritable .cold version))) ∧
        (bv.writableBucket .cold = none →
          b.fetchBlocksForColdFlush start version =
            (.error .writableBucketDoesNotExist, b))) := by
  constructor
  · intro hres
    rw [DBuffer.fetchBlocksForColdFlush]
    rw [show ({ filterWriteType := true, writeType := .cold } :
      StreamsOptions) = coldStreamOpts from rfl]
    rw [hres]
    rfl
  · intro r rs hres bv hlk
    have hrs : rs = [] := fetchBlocks_singleton b start coldStreamOpts r rs hres
    subst hrs
    have hfound : b.bucketVersionsFound start = true := by
      unfold DBuffer.bucketVersionsFound
      rw [hlk]
      simp
    rw [DBuffer.fetchBlocksForColdFlush]
    rw [show ({ filterWriteType := true, writeType := .cold } :
      StreamsOptions) = coldStreamOpts from rfl]
    rw [hres]
    rw [if_neg (by simp), if_neg (by simp)]
    rw [hlk, hfound]
    dsimp only
    constructor
    · intro hw
      split
      · rfl
      · rename_i hsp
        rw [hsp] at hw
        simp at hw
    · intro hw
      split
      · rename_i val hsp
        rw [hw] at hsp
        cases hsp
      · rfl

/-- Witness: the cold-data buffer returns its stream and promotes the
writable cold bucket to version 4; the empty buffer returns nil streams
with nil error. -/
theorem c5_fetch_blocks_for_cold_flush_witness :
    c5Buffer.fetchBlocksForColdFlush 0 4 =
      (.ok [[⟨1, 5⟩]], c5Buffer.setAtBV 0 (c5BV.promoteWritable .cold 4)) ∧
    cexBuffer.fetchBlocksForColdFlush 0 4 = (.ok [], cexBuffer) :=
  ⟨((c5_fetch_blocks_for_cold_flush c5Buffer 0 4).2 (0, [[⟨1, 5⟩]]) []
      (by decide) c5BV (by decide)).1 (by decide),
    (c5_fetch_blocks_for_cold_flush cexBuffer 0 4).1 (by decide)⟩

theorem lookupBV_isSome_iff (m : List (Int × BufferBucketVersions))
    (t : Int) : (lookupBV m t).isSome ↔ t ∈ m.map (·.1) := by
  induction m with
  | nil => simp [lookupBV]
  | cons p rest ih =>
    by_cases hp : p.1 = t
    · simp [lookupBV, List.find?_cons, hp]
    · rw [lookupBV, List.find?_cons_of_neg _ (by simpa using hp)]
      rw [lookupBV] at ih
      simp only [List.map_cons, List.mem_cons]
      rw [ih]
      constructor
      · exact Or.inr
      · rintro (h | h)
        · exact absurd h.symm hp
        · exact h

theorem setBVMap_keys (m : List (Int × BufferBucketVersions)) (u : Int)
    (bv : BufferBucketVersions) :
    (setBVMap m u bv).map (·.1) = m.map (·.1) := by
  unfold setBVMap
  rw [List.map_map]
  apply List.map_congr_left
  intro p _
  by_cases hp : p.1 = u
  · simp [hp]
  · simp [hp]

theorem lookupBV_append_single (m : List (Int × BufferBucketVersions))
    (u t : Int) (bv : BufferBucketVersions) :
    (lookupBV (m ++ [(u, bv)]) t).isSome ↔
      (lookupBV m t).isSome ∨ t = u := by
  rw [lookupBV_isSome_iff, lookupBV_isSome_iff]
  simp only [List.map_append, List.mem_append, List.map_cons,
    List.map_nil, List.mem_singleton]

theorem mem_insertBlockStart (t u : Int) (l : List Int) :
    u ∈ insertBlockStart t l ↔ u = t ∨ u ∈ l := by
  induction l with
  | nil => simp [insertBlockStart]
  | cons x rest ih =>
    rw [insertBlockStart]
    by_cases hlt : t < x
    · rw [if_pos hlt]
      simp
    · rw [if_neg hlt]
      simp only [List.mem_cons, ih]
      tauto

theorem insertBlockStart_sorted (t : Int) (l : List Int)
    (hs : l.Pairwise (· < ·)) (ht : t ∉ l) :
    (insertBlockStart t l).Pairwise (· < ·) := by
  induction l with
  | nil => simp [insertBlockStart]
  | cons x rest ih =>
    rw [List.pairwise_cons] at hs
    rw [insertBlockStart]
    by_cases hlt : t < x
    · rw [if_pos hlt]
      rw [List.pairwise_cons]
      refine ⟨?_, List.pairwise_cons.mpr hs⟩
      intro y hy
      rcases List.mem_cons.mp hy with rfl | hy2
      · exact hlt
      · exact hlt.trans (hs.1 y hy2)
    · rw [if_neg hlt]
      have hxt : x < t := by
        rcases lt_trichotomy t x with h | h | h
        · exact absurd h hlt
        · exact absurd h (fun he => ht (he ▸ List.mem_cons_self x rest))
        · exact h
      rw [List.pairwise_cons]
      refine ⟨?_, ih hs.2 (fun hm => ht (List.mem_cons_of_mem x hm))⟩
      intro y hy
      rcases (mem_insertBlockStart t y rest).mp hy with rfl | hy2
      · exact hxt
      · exact hs.1 y hy2

theorem removeBlockStart_sublist (t : Int) (l : List Int) :
    (removeBlockStart t l).Sublist l := by
  induction l with
  | nil => simp [removeBlockStart]
  | cons x rest ih =>
    rw [removeBlockStart]
    by_cases hx : x = t
    · rw [if_pos hx]
      exact (List.sublist_cons_self x rest)
    · rw [if_neg hx]
      exact ih.cons₂ x

theorem mem_removeBlockStart (t u : Int) (l : List Int) (hnd : l.Nodup) :
    u ∈ removeBlockStart t l ↔ u ∈ l ∧ u ≠ t := by
  induction l with
  | nil => simp [removeBlockStart]
  | cons x rest ih =>
    rw [List.nodup_cons] at hnd
    rw [removeBlockStart]
    by_cases hx : x = t
    · rw [if_pos hx]
      subst hx
      constructor
      · intro h
        exact ⟨List.mem_cons_of_mem x h, fun he => hnd.1 (he ▸ h)⟩
      · rintro ⟨h1, h2⟩
        rcases List.mem_cons.mp h1 with rfl | h3
        · exact absurd rfl h2
        · exact h3
    · rw [if_neg hx]
      simp only [List.mem_cons, ih hnd.2]
      constructor
      · rintro (rfl | ⟨h1, h2⟩)
        · exact ⟨Or.inl rfl, fun he => hx he⟩
        · exact ⟨Or.inr h1, h2⟩
      · rintro ⟨rfl | h1, h2⟩
        · exact Or.inl rfl
        · exact Or.inr ⟨h1, h2⟩

theorem eraseP_keys (m : List (Int × BufferBucketVersions)) (t : Int) :
    (m.eraseP fun p => p.1 = t).map (·.1) =
      removeBlockStart t (m.map (·.1)) := by
  induction m with
  | nil => rfl
  | cons p rest ih =>
    rw [List.map_cons, removeBlockStart]
    by_cases hp : p.1 = t
    · rw [List.eraseP_cons_of_pos (by simpa using hp), if_pos hp]
    · rw [List.eraseP_cons_of_neg (by simpa using hp), if_neg hp,
        List.map_cons, ih]

theorem coherent_setBVMap (b : DBuffer) (u : Int)
    (bv : BufferBucketVersions) (h : Coherent b) :
    Coherent { b with bucketsMap := setBVMap b.bucketsMap u bv } := by
  obtain ⟨h1, h2, h3, h4, h5⟩ := h
  have hk : ({ b with bucketsMap := setBVMap b.bucketsMap u bv } :
      DBuffer).keys = b.keys := setBVMap_keys b.bucketsMap u bv
  exact ⟨fun t => hk ▸ h1 t, h2, hk ▸ h3, fun t ht => hk ▸ h4 t ht, h5⟩

theorem coherent_create (b : DBuffer) (t : Int) (h : Coherent b) :
    Coherent (b.bucketVersionsAtCreate t) := by
  obtain ⟨h1, h2, h3, h4, h5⟩ := h
  rw [DBuffer.bucketVersionsAtCreate]
  by_cases hf : b.bucketVersionsFound t
  · rw [if_pos hf]
    exact ⟨h1, h2, h3, h4, h5⟩
  · rw [if_neg hf]
    have hnot : t ∉ b.keys := by
      intro hmem
      exact hf (by
        unfold DBuffer.bucketVersionsFound
        rw [(lookupBV_isSome_iff b.bucketsMap t).mpr hmem]
        simp)
    have hkeys : ∀ u, u ∈ (b.bucketsMap ++ [(t, freshBV t)]).map (·.1) ↔
        u ∈ b.keys ∨ u = t := by
      intro u
      simp [DBuffer.keys]
    refine ⟨?_, ?_, ?_, ?_, h5⟩
    · intro u
      dsimp only [DBuffer.keys]
      rw [hkeys u, mem_insertBlockStart]
      rw [h1 u]
      tauto
    · exact insertBlockStart_sorted t b.inOrderBlockStarts h2
        (fun hm => hnot ((h1 t).mp hm))
    · dsimp only [DBuffer.keys]
      rw [List.map_append]
      apply List.Nodup.append h3 (by simp)
      simp only [List.map_cons, List.map_nil, List.disjoint_singleton]
      simpa [DBuffer.keys] using hnot
    · intro u hu
      dsimp only [DBuffer.keys, DBuffer.cacheHas] at hu ⊢
      rw [hkeys u]
      exact Or.inl (h4 u hu)

theorem coherent_putCache (b : DBuffer) (t : Int) (h : Coherent b)
    (hmem : t ∈ b.keys) : Coherent (b.putBucketVersionsInCache t) := by
  obtain ⟨h1, h2, h3, h4, h5⟩ := h
  have hc0m : ∀ u, b.cache0 = some u → u ∈ b.keys := fun u hu =>
    h4 u (by simp [DBuffer.cacheHas, hu])
  have hc1m : ∀ u, b.cache1 = some u → u ∈ b.keys := fun u hu =>
    h4 u (by simp [DBuffer.cacheHas, hu])
  rw [DBuffer.putBucketVersionsInCache]
  by_cases hc1 : b.cache1 = some t
  · rw [if_pos hc1]
    refine ⟨h1, h2, h3, ?_, ?_⟩
    · intro u hu
      simp only [DBuffer.cacheHas, Bool.or_eq_true, decide_eq_true_eq,
        Option.some.injEq] at hu
      rcases hu with rfl | hu
      · exact hmem
      · exact hc0m u hu
    · rintro u ⟨ha, hb⟩
      have hut : t = u := by simpa using ha
      subst hut
      exact h5 t ⟨hb, hc1⟩
  · rw [if_neg hc1]
    by_cases hc0 : b.cache0 = some t
    · rw [if_pos hc0]
      refine ⟨h1, h2, h3, ?_, ?_⟩
      · intro u hu
        simp only [DBuffer.cacheHas, Bool.or_eq_true, decide_eq_true_eq,
          Option.some.injEq] at hu
        rcases hu with rfl | hu
        · exact hmem
        · exact hc1m u hu
      · rintro u ⟨ha, hb⟩
        have hut : t = u := by simpa using ha
        subst hut
        exact hc1 hb
    · rw [if_neg hc0]
      refine ⟨h1, h2, h3, ?_, ?_⟩
      · intro u hu
        simp only [DBuffer.cacheHas, Bool.or_eq_true, decide_eq_true_eq,
          Option.some.injEq] at hu
        rcases hu with rfl | hu
        · exact hmem
        · exact hc0m u hu
      · rintro u ⟨ha, hb⟩
        have hut : t = u := by simpa using ha
        subst hut
        exact hc0 hb

theorem lookupBV_setBVMap_none (m : List (Int × BufferBucketVersions))
    (t u : Int) (bv : BufferBucketVersions) :
    lookupBV (setBVMap m t bv) u = none ↔ lookupBV m u = none := by
  have h1 := lookupBV_isSome_iff (setBVMap m t bv) u
  have h2 := lookupBV_isSome_iff m u
  rw [setBVMap_keys] at h1
  cases hx : lookupBV (setBVMap m t bv) u <;> cases hy : lookupBV m u <;>
    simp_all

theorem except_map_error_iff {α β γ : Type} (f : β → γ)
    (x : Except α β) (e : α) : x.map f = .error e ↔ x = .error e := by
  cases x <;> simp [Except.map]

theorem bucketVersionsFound_keys (b : DBuffer) (t : Int) (h : Coherent b) :
    b.bucketVersionsFound t = true ↔ t ∈ b.keys := by
  obtain ⟨h1, h2, h3, h4, h5⟩ := h
  rw [DBuffer.bucketVersionsFound]
  constructor
  · intro hf
    rcases Bool.or_eq_true_iff.mp hf with hc | hs
    · exact h4 t hc
    · exact (lookupBV_isSome_iff b.bucketsMap t).mp hs
  · intro hm
    exact Bool.or_eq_true_iff.mpr
      (Or.inr ((lookupBV_isSome_iff b.bucketsMap t).mpr hm))

theorem mem_keys_create (b : DBuffer) (t : Int) (h : Coherent b) :
    t ∈ (b.bucketVersionsAtCreate t).keys := by
  rw [DBuffer.bucketVersionsAtCreate]
  by_cases hf : b.bucketVersionsFound t
  · rw [if_pos hf]
    exact (bucketVersionsFound_keys b t h).mp hf
  · rw [if_neg hf]
    simp [DBuffer.keys]

theorem removeCache_map (b : DBuffer) (t : Int) :
    (b.removeBucketVersionsInCache t).bucketsMap = b.bucketsMap ∧
      (b.removeBucketVersionsInCache t).inOrderBlockStarts =
        b.inOrderBlockStarts := by
  rw [DBuffer.removeBucketVersionsInCache]
  split_ifs <;> exact ⟨rfl, rfl⟩

theorem removeCache_cacheHas (b : DBuffer) (t u : Int)
    (h5 : ∀ v, ¬ (b.cache0 = some v ∧ b.cache1 = some v)) :
    (b.removeBucketVersionsInCache t).cacheHas u = true →
      b.cacheHas u = true ∧ u ≠ t := by
  rw [DBuffer.removeBucketVersionsInCache]
  by_cases hc1 : b.cache1 = some t
  · rw [if_pos hc1]
    intro hu
    simp only [DBuffer.cacheHas, Bool.or_eq_true, decide_eq_true_eq] at hu
    rcases hu with hu | hu
    · refine ⟨by simp [DBuffer.cacheHas, hu], ?_⟩
      rintro rfl
      exact h5 u ⟨hu, hc1⟩
    · exact absurd hu (by simp)
  · rw [if_neg hc1]
    by_cases hc0 : b.cache0 = some t
    · rw [if_pos hc0]
      intro hu
      simp only [DBuffer.cacheHas, Bool.or_eq_true, decide_eq_true_eq] at hu
      rcases hu with hu | hu
      · refine ⟨by simp [DBuffer.cacheHas, hu], ?_⟩
        rintro rfl
        exact hc1 hu
      · exact absurd hu (by simp)
    · rw [if_neg hc0]
      intro hu
      simp only [DBuffer.cacheHas, Bool.or_eq_true, decide_eq_true_eq] at hu
      refine ⟨by simp [DBuffer.cacheHas]; tauto, ?_⟩
      rintro rfl
      rcases hu with hu | hu
      · exact hc0 hu
      · exact hc1 hu

theorem removeCache_alias (b : DBuffer) (t : Int)
    (h5 : ∀ v, ¬ (b.cache0 = some v ∧ b.cache1 = some v)) :
    ∀ v, ¬ ((b.removeBucketVersionsInCache t).cache0 = some v ∧
        (b.removeBucketVersionsInCache t).cache1 = some v) := by
  rw [DBuffer.removeBucketVersionsInCache]
  split_ifs <;> rintro v ⟨ha, hb⟩
  · exact hb
  · exact hb
  · exact h5 v ⟨ha, hb⟩

theorem coherent_remove (b : DBuffer) (t : Int) (h : Coherent b) :
    Coherent (b.removeBucketVersionsAt t) := by
  obtain ⟨h1, h2, h3, h4, h5⟩ := h
  rw [DBuffer.removeBucketVersionsAt]
  by_cases hf : b.bucketVersionsFound t
  case neg =>
    rw [if_neg hf]
    exact ⟨h1, h2, h3, h4, h5⟩
  rw [if_pos hf]
  dsimp only
  have hmap := removeCache_map b t
  have hlnd : b.inOrderBlockStarts.Nodup :=
    List.Pairwise.imp (fun hlt => ne_of_lt hlt) h2
  have h3m : (b.bucketsMap.map (fun p => p.1)).Nodup := h3
  have h1m : ∀ u, u ∈ b.inOrderBlockStarts ↔
      u ∈ b.bucketsMap.map (fun p => p.1) := h1
  have h4m : ∀ u, b.cacheHas u = true →
      u ∈ b.bucketsMap.map (fun p => p.1) := h4
  refine ⟨?_, ?_, ?_, ?_, ?_⟩
  · intro u
    dsimp only [DBuffer.keys]
    rw [eraseP_keys, hmap.1, hmap.2]
    rw [mem_removeBlockStart t u _ hlnd, mem_removeBlockStart t u _ h3m]
    rw [h1m u]
  · rw [hmap.2]
    exact List.Pairwise.sublist
      (removeBlockStart_sublist t b.inOrderBlockStarts) h2
  · dsimp only [DBuffer.keys]
    rw [eraseP_keys, hmap.1]
    exact List.Nodup.sublist
      (removeBlockStart_sublist t (b.bucketsMap.map (fun p => p.1))) h3m
  · intro u hu
    dsimp only [DBuffer.keys]
    rw [eraseP_keys, hmap.1, mem_removeBlockStart t u _ h3m]
    have hres := removeCache_cacheHas b t u h5 hu
    exact ⟨h4m u hres.1, hres.2⟩
  · exact removeCache_alias b t h5

theorem coherent_setAtBV (b : DBuffer) (t : Int) (bv : BufferBucketVersions)
    (h : Coherent b) : Coherent (b.setAtBV t bv) :=
  coherent_setBVMap b t bv h

theorem coherent_write (b : DBuffer) (now timestamp value : Int)
    (wopts : WriteOptions) (h : Coherent b) :
    Coherent (b.write now timestamp value wopts).2 := by
  rw [DBuffer.write]
  cases b.classifyWrite now timestamp with
  | error e => exact h
  | ok wt =>
    dsimp only
    have hc1 : Coherent
        (b.bucketVersionsAtCreate (truncateTime timestamp b.blockSize)) :=
      coherent_create b _ h
    have hm := mem_keys_create b (truncateTime timestamp b.blockSize) h
    have hc2 := coherent_putCache _ _ hc1 hm
    split
    · exact hc2
    · rename_i bv hbv
      exact coherent_setBVMap _ _ _ hc2

theorem coherent_bootstrapBlock (b : DBuffer) (blockStart : Int)
    (bl : List Datapoint) (h : Coherent b) :
    Coherent (b.bootstrapBlock blockStart bl) := by
  rw [DBuffer.bootstrapBlock]
  have hc1 : Coherent (b.bucketVersionsAtCreate blockStart) :=
    coherent_create b _ h
  split
  · exact hc1
  · exact coherent_setBVMap _ _ _ hc1

theorem coherent_warmFlush (b : DBuffer) (mergeFn : MergeFn)
    (persistOk : Bool) (blockStart : Int) (h : Coherent b) :
    Coherent (b.warmFlush mergeFn persistOk blockStart).2 := by
  rcases warmFlush_shape b mergeFn persistOk blockStart with
    ⟨_, he⟩ | ⟨bv, _, ⟨e, he⟩ | he | ⟨_, he⟩ | ⟨_, he⟩⟩ <;> rw [he] <;>
    first
      | exact h
      | exact coherent_setAtBV _ _ _ h

theorem coherent_fetchCold (b : DBuffer) (start : Int) (version : Nat)
    (h : Coherent b) :
    Coherent (b.fetchBlocksForColdFlush start version).2 := by
  rw [DBuffer.fetchBlocksForColdFlush]
  dsimp only
  split_ifs
  · exact h
  · exact h
  · split
    · split
      · exact coherent_setBVMap _ _ _ h
      · exact h
    · exact h

theorem coherent_tickEntry (b : DBuffer) (mergeFn : MergeFn)
    (blockStates : Int → BlockState) (t : Int) (h : Coherent b) :
    Coherent (b.tickEntry mergeFn blockStates t).1 := by
  rw [DBuffer.tickEntry]
  split
  · exact h
  · rename_i bv hbv
    dsimp only
    split_ifs <;>
      first
        | exact coherent_remove _ _ (coherent_setBVMap _ _ _ h)
        | exact coherent_setBVMap _ _ _ h

theorem coherent_tick_fold
    (f : DBuffer × List Int → Int → DBuffer × List Int)
    (hf : ∀ q u, Coherent q.1 → Coherent (f q u).1) :
    ∀ (l : List Int) (q : DBuffer × List Int), Coherent q.1 →
      Coherent (l.foldl f q).1 := by
  intro l
  induction l with
  | nil => intro q hq; exact hq
  | cons x rest ih =>
    intro q hq
    rw [List.foldl_cons]
    exact ih (f q x) (hf q x hq)

theorem coherent_tick (b : DBuffer) (mergeFn : MergeFn)
    (blockStates : Int → BlockState) (h : Coherent b) :
    Coherent (b.tick mergeFn blockStates).1 := by
  rw [DBuffer.tick]
  refine coherent_tick_fold _ ?_ _ (b, []) h
  intro q u hq
  exact coherent_tickEntry q.1 mergeFn blockStates u hq

theorem coherent_readLoop (now rstart rend blockSize : Int) :
    ∀ (l : List Int) (b : DBuffer), Coherent b →
      Coherent (readEncodedLoop now rstart rend blockSize l b).2 := by
  intro l
  induction l with
  | nil => intro b hb; exact hb
  | cons t rest ih =>
    intro b hb
    rw [readEncodedLoop]
    by_cases h1 : t < rend ∧ rstart < t + blockSize
    · rw [if_neg (not_not_intro h1)]
      by_cases h2 : b.bucketVersionsFound t = true
      · rw [if_neg (not_not_intro h2)]
        cases hlk : lookupBV b.bucketsMap t with
        | none => exact hb
        | some bv =>
          dsimp only
          by_cases hse : (bv.streams
              { filterWriteType := false, writeType := .warm }).isEmpty = true
          · rw [if_pos hse]
            exact ih _ (coherent_setAtBV b t (readStampBV now bv) hb)
          · rw [if_neg hse]
            exact ih _ (coherent_setAtBV b t (readStampBV now bv) hb)
      · rw [if_pos h2]
        exact hb
    · rw [if_pos h1]
      exact ih b hb

theorem readLoop_error_iff (now rstart rend blockSize : Int) :
    ∀ (l : List Int) (b : DBuffer),
      (∃ e, (readEncodedLoop now rstart rend blockSize l b).1 = .error e) ↔
        ∃ t, t ∈ l ∧ (t < rend ∧ rstart < t + blockSize) ∧
          lookupBV b.bucketsMap t = none := by
  intro l
  induction l with
  | nil =>
    intro b
    simp [readEncodedLoop]
  | cons t rest ih =>
    intro b
    rw [readEncodedLoop]
    by_cases h1 : t < rend ∧ rstart < t + blockSize
    · rw [if_neg (not_not_intro h1)]
      by_cases h2 : b.bucketVersionsFound t = true
      · rw [if_neg (not_not_intro h2)]
        cases hlk : lookupBV b.bucketsMap t with
        | none =>
          dsimp only
          constructor
          · intro _
            exact ⟨t, List.mem_cons_self t rest, h1, hlk⟩
          · intro _
            exact ⟨.bucketMapCacheNotInSync t, rfl⟩
        | some bv =>
          dsimp only
          have hkey : ∀ u,
              lookupBV (b.setAtBV t (readStampBV now bv)).bucketsMap u =
                none ↔ lookupBV b.bucketsMap u = none := by
            intro u
            exact lookupBV_setBVMap_none b.bucketsMap t u (readStampBV now bv)
          have herr : ∀ e,
              ((if (bv.streams (StreamsOptions.mk false .warm)).isEmpty then
                  readEncodedLoop now rstart rend blockSize rest
                    (b.setAtBV t (readStampBV now bv))
                else
                  ((readEncodedLoop now rstart rend blockSize rest
                      (b.setAtBV t (readStampBV now bv))).1.map
                    ((bv.streams (StreamsOptions.mk false .warm)) :: ·),
                   (readEncodedLoop now rstart rend blockSize rest
                      (b.setAtBV t (readStampBV now bv))).2)).1 = .error e) ↔
              (readEncodedLoop now rstart rend blockSize rest
                  (b.setAtBV t (readStampBV now bv))).1 = .error e := by
            intro e
            by_cases hse :
                (bv.streams (StreamsOptions.mk false .warm)).isEmpty = true
            · rw [if_pos hse]
            · rw [if_neg hse]
              exact except_map_error_iff _ _ _
          constructor
          · rintro ⟨e, he⟩
            obtain ⟨u, hu, hcond, hnone⟩ :=
              (ih (b.setAtBV t (readStampBV now bv))).mp
                ⟨e, (herr e).mp he⟩
            exact ⟨u, List.mem_cons_of_mem t hu, hcond, (hkey u).mp hnone⟩
          · rintro ⟨u, hu, hcond, hnone⟩
            rcases List.mem_cons.mp hu with rfl | hu2
            · rw [hlk] at hnone
              exact Option.noConfusion hnone
            · obtain ⟨e, he⟩ :=
                (ih (b.setAtBV t (readStampBV now bv))).mpr
                  ⟨u, hu2, hcond, (hkey u).mpr hnone⟩
              exact ⟨e, (herr e).mpr he⟩
      · rw [if_pos h2]
        have hnone : lookupBV b.bucketsMap t = none := by
          rw [DBuffer.bucketVersionsFound] at h2
          simp only [Bool.or_eq_true, not_or] at h2
          exact Option.not_isSome_iff_eq_none.mp (by simpa using h2.2)
        constructor
        · intro _
          exact ⟨t, List.mem_cons_self t rest, h1, hnone⟩
        · intro _
          exact ⟨.bucketMapCacheNotInSync t, rfl⟩
    · rw [if_pos h1]
      rw [ih b]
      constructor
      · rintro ⟨u, hu, hcond, hn⟩
        exact ⟨u, List.mem_cons_of_mem t hu, hcond, hn⟩
      · rintro ⟨u, hu, hcond, hn⟩
        rcases List.mem_cons.mp hu with rfl | hu2
        · exact absurd hcond h1
        · exact ⟨u, hu2, hcond, hn⟩

/-- Claim C6 is false for the LRU cache: the cache holds at most two
entries (`bucketsCacheSize = 2`), so after three warm writes to distinct
blockStarts the buckets map holds the key 900 (as does the sorted
in-order list) while the cache references only 920 and 910 — the set of
cache entries is a strict subset of the map's keys, not equal to it. -/
theorem c6_claim_counterexample :
    (lookupBV c6After.bucketsMap 900).isSome = true ∧
      c6After.cacheHas 900 = false ∧
      900 ∈ c6After.inOrderBlockStarts := by
  refine ⟨?_, ?_, ?_⟩ <;> decide

/-- Claim C6 (amended): every series-buffer operation — Write, Bootstrap,
Tick, WarmFlush, FetchBlocksForColdFlush, bucket removal and ReadEncoded —
preserves the coherence invariant `Coherent` (the sorted in-order
blockStart list holds exactly the buckets map's keys, strictly
increasing and duplicate-free, and every LRU cache slot references a live
map key, the two slots never aliasing); on a coherent buffer ReadEncoded
never raises `BucketMapCacheNotInSync`, and in general it raises it
exactly when some blockStart of the in-order list that overlaps the
requested `[start, end)` range has no entry in the buckets map. -/
theorem c6_coherence_spec (b bq : DBuffer) (mergeFn : MergeFn)
    (blockStates : Int → BlockState) (wopts : WriteOptions)
    (bl : List Datapoint) (now timestamp value rstart rend blockStart : Int)
    (persistOk : Bool) (version : Nat) (h : Coherent b) :
    Coherent (b.write now timestamp value wopts).2 ∧
    Coherent (b.bootstrapBlock blockStart bl) ∧
    Coherent (b.tick mergeFn blockStates).1 ∧
    Coherent (b.warmFlush mergeFn persistOk blockStart).2 ∧
    Coherent (b.fetchBlocksForColdFlush blockStart version).2 ∧
    Coherent (b.removeBucketVersionsAt blockStart) ∧
    Coherent (b.readEncoded now rstart rend).2 ∧
    (∀ e, (b.readEncoded now rstart rend).1 ≠ .error e) ∧
    ((∃ e, (bq.readEncoded now rstart rend).1 = .error e) ↔
      ∃ t, t ∈ bq.inOrderBlockStarts ∧
        (t < rend ∧ rstart < t + bq.blockSize) ∧
        lookupBV bq.bucketsMap t = none) := by
  refine ⟨coherent_write b now timestamp value wopts h,
    coherent_bootstrapBlock b blockStart bl h,
    coherent_tick b mergeFn blockStates h,
    coherent_warmFlush b mergeFn persistOk blockStart h,
    coherent_fetchCold b blockStart version h,
    coherent_remove b blockStart h,
    coherent_readLoop now rstart rend b.blockSize b.inOrderBlockStarts b h,
    ?_,
    readLoop_error_iff now rstart rend bq.blockSize bq.inOrderBlockStarts bq⟩
  intro e he
  obtain ⟨t, hm, _, hnone⟩ :=
    (readLoop_error_iff now rstart rend b.blockSize
      b.inOrderBlockStarts b).mp ⟨e, he⟩
  obtain ⟨h1, _, _, _, _⟩ := h
  have hk : t ∈ b.keys := (h1 t).mp hm
  have hs := (lookupBV_isSome_iff b.bucketsMap t).mpr hk
  rw [hnone] at hs
  exact absurd hs (by simp)

/-- Witness for the amended claim C6: the empty buffer is coherent, and
so is the buffer the first warm write leaves behind. -/
theorem c6_coherence_spec_witness :
    Coherent cexBuffer ∧
      Coherent ((cexBuffer.write 1000 905 1 c6WriteOpts).2) := by
  have hc : Coherent cexBuffer := by
    simp [Coherent, cexBuffer, DBuffer.keys, DBuffer.cacheHas]
  refine ⟨hc, ?_⟩
  exact (c6_coherence_spec cexBuffer cexBuffer concatMergeFn
    (fun _ => BlockState.mk false 0) c6WriteOpts [] 1000 905 1 900 1100 900
    true 1 hc).1
